import Mathlib

/-!
# html-report: page rendering, report orchestration and search index

A shallow embedding of `generator/generate.go` and of the one section template of
`generator/templates.go` whose text the properties below depend on.

Conventions of the embedding.

* `execTemplate(name, w, data)` hands a named section and a data value to the templating
  engine, which writes to `w`.  The engine is an external collaborator, so a call is recorded
  as a `Section` (template name and data value) and a generator function returns the list of
  sections it appends to its writer, in order.
* `execTemplate` ends the process through `log.Fatalf` when the engine returns an error.
  The page functions (`generateOverview`, `generatePageFooter`, `generateIndexPage`,
  `generateSpecPage`) therefore take an `Engine`, which says for each template and value
  whether the execution succeeds, and return a `Rendered`: the sections written and whether
  the process has exited.  `executes` is the engine that the templates and structs of this
  repository determine: `reportOverviewTag` fails on an `*overview`.  The functions below a
  specification body (`generateSpecDiv`, `generateScenario`, `generateItem`) execute
  templates of `templates.go` that read only fields their values have, and `specErrorDiv`,
  which is not defined in `templates.go` and is taken to execute; they return their sections.
* Optional pointers that the code tests against `nil` are `Option`s.  Pointers that the code
  dereferences without a test (`step.Res`, `concept.CptStep`, the elements of `[]*scenario`)
  are plain values.
* `map[string][]string` is a function from keys to lists; an absent key reads as the empty
  list, as a Go map lookup does.
* The operating system (`os.Create`, `CreateDirectory`, the `filepath` functions) and the
  functions of `transform.go` are fields of an environment record.
* The messages of `gauge_messages` are read through their generated getters only, which
  return the zero value on a `nil` receiver; a `nil` message therefore behaves as one whose
  fields are all zero, and optional sub-messages are `Option`s.
* `GenerateReports` is a run: the trace of what the calling goroutine does to the outside
  world, in program order, and how it ends.  Starting a goroutine is one event; it carries
  the rendering of the page function the goroutine runs.  A goroutine that ends the process
  does so after `sched` further events of the calling goroutine, and at the latest when the
  calling goroutine waits for it.
-/

namespace generator

/-! ## Render model (`generate.go`, lines 37-204) -/

structure summary where
  Total : Int
  Failed : Int
  Passed : Int
  Skipped : Int

structure overview where
  ProjectName : String
  Env : String
  Tags : String
  SuccRate : Float
  ExecTime : String
  Timestamp : String
  Summary : Option summary
  BasePath : String

structure specsMeta where
  SpecName : String
  ExecTime : String
  Failed : Bool
  Skipped : Bool
  Tags : List String
  ReportFile : String

structure sidebar where
  IsBeforeHookFailure : Bool
  Specs : List specsMeta

structure hookFailure where
  HookName : String
  ErrMsg : String
  Screenshot : String
  StackTrace : String

structure specHeader where
  SpecName : String
  ExecTime : String
  FileName : String
  Tags : List String
  Summary : Option summary

/-- The Go type `status` is an `int`; the four named values are `pass` .. `notExecuted`. -/
abbrev status := Int

def pass : status := 0
def fail : status := 1
def skip : status := 2
def notExecuted : status := 3

structure row where
  Cells : List String
  Res : status

structure table where
  Headers : List String
  Rows : List row

/-- The Go type `errorType` is an `int`; `parseError` is 0 and `validationError` is 1. -/
abbrev errorType := Int

def parseError : errorType := 0
def validationError : errorType := 1

structure buildError where
  ErrorType : errorType
  FileName : String
  LineNumber : Int
  Message : String

def buildError.isParseError (e : buildError) : Bool :=
  e.ErrorType == parseError

def buildError.Error (e : buildError) : String :=
  if e.isParseError then "[Parse Error] " ++ e.Message
  else "[Validation Error] " ++ e.Message

structure result where
  Status : status
  StackTrace : String
  Screenshot : String
  ErrorMessage : String
  ExecTime : String
  SkippedReason : String
  Messages : List String

/-- Display fragments are only read by the templating engine; their kind and texts are kept. -/
structure fragment where
  FragmentKind : Int
  Text : String
  Name : String

structure step where
  Fragments : List fragment
  Res : result
  PreHookFailure : Option hookFailure
  PostHookFailure : Option hookFailure

structure comment where
  Text : String

/-- The interface `item` has exactly three implementations, told apart by `kind()`. -/
inductive item where
  | step (s : step)
  | comment (c : comment)
  | concept (CptStep : generator.step) (Items : List item)

structure scenario where
  Heading : String
  ExecTime : String
  Tags : List String
  ExecStatus : status
  Contexts : List item
  Items : List item
  Teardown : List item
  BeforeHookFailure : Option hookFailure
  AfterHookFailure : Option hookFailure
  TableRowIndex : Int

structure spec where
  CommentsBeforeTable : List String
  Table : Option table
  CommentsAfterTable : List String
  Scenarios : List scenario
  BeforeHookFailure : Option hookFailure
  AfterHookFailure : Option hookFailure
  Errors : List buildError

/-! ## Sections handed to the templating engine -/

/-- The names registered in `templates` (`generate.go`, lines 209-213). -/
inductive Template where
  | bodyFooterTag | reportOverviewTag | sidebarDiv | congratsDiv | hookFailureDiv | tagsDiv
  | messageDiv | skippedReasonDiv | specsStartDiv | specsItemsContainerDiv
  | specsItemsContentsDiv | specHeaderStartTag | scenarioContainerStartDiv
  | scenarioHeaderStartDiv | specCommentsAndTableTag | htmlPageStartTag | headerEndTag
  | mainEndTag | endDiv | conceptStartDiv | stepStartDiv | stepMetaDiv | stepBodyDiv
  | stepFailureDiv | stepEndDiv | conceptSpan | contextOrTeardownStartDiv | commentSpan
  | conceptStepsStartDiv | nestedConceptDiv | htmlPageEndWithJS | specErrorDiv
  deriving DecidableEq, Repr

/-- The `data interface{}` argument of `execTemplate`. -/
inductive Data where
  | nil
  | overview (o : generator.overview)
  | sidebar (s : generator.sidebar)
  | hookFailure (h : generator.hookFailure)
  | specHeader (h : generator.specHeader)
  | spec (s : generator.spec)
  | scenario (s : generator.scenario)
  | step (s : generator.step)
  | result (r : generator.result)
  | comment (c : generator.comment)

/-- One call `execTemplate(tmpl, w, data)`. -/
structure Section where
  tmpl : Template
  data : Data

def execTemplate (tmplName : Template) (data : Data) : List Section :=
  [⟨tmplName, data⟩]

/-- The template names of a sequence of sections, in order. -/
def names (out : List Section) : List Template :=
  out.map Section.tmpl

/-! ## Items and scenarios (`generate.go`, lines 456-521) -/

def generateItems (items : List item) (predicate : item → List Section) : List Section :=
  items.foldl (fun w i => w ++ predicate i) []

mutual

def generateItem : item → List Section
  | .step s =>
    execTemplate .stepStartDiv (.step s)
    ++ execTemplate .stepBodyDiv (.step s)
    ++ (match s.PreHookFailure with
        | some h => execTemplate .hookFailureDiv (.hookFailure h)
        | none => [])
    ++ (if s.Res.Status = fail ∧ s.Res.ErrorMessage ≠ "" ∧ s.Res.StackTrace ≠ "" then
          execTemplate .stepFailureDiv (.result s.Res)
        else [])
    ++ (match s.PostHookFailure with
        | some h => execTemplate .hookFailureDiv (.hookFailure h)
        | none => [])
    ++ execTemplate .messageDiv (.result s.Res)
    ++ execTemplate .stepEndDiv (.step s)
    ++ (if s.Res.Status = skip ∧ s.Res.SkippedReason ≠ "" then
          execTemplate .skippedReasonDiv (.result s.Res)
        else [])
  | .comment c => execTemplate .commentSpan (.comment c)
  | .concept CptStep Items =>
    execTemplate .conceptStartDiv (.step CptStep)
    ++ execTemplate .conceptSpan .nil
    ++ execTemplate .stepBodyDiv (.step CptStep)
    ++ execTemplate .stepEndDiv (.step CptStep)
    ++ execTemplate .conceptStepsStartDiv .nil
    ++ generateItemsOfConcept Items
    ++ execTemplate .endDiv .nil

/-- The call `generateItems(w, item.(*concept).Items, generateItem)` inside `generateItem`. -/
def generateItemsOfConcept : List item → List Section
  | [] => []
  | i :: rest => generateItem i ++ generateItemsOfConcept rest

end

def generateContextOrTeardown (i : item) : List Section :=
  execTemplate .contextOrTeardownStartDiv .nil
  ++ generateItem i
  ++ execTemplate .endDiv .nil

def generateScenario (scn : scenario) : List Section :=
  execTemplate .scenarioContainerStartDiv (.scenario scn)
  ++ execTemplate .scenarioHeaderStartDiv (.scenario scn)
  ++ execTemplate .tagsDiv (.scenario scn)
  ++ execTemplate .endDiv .nil
  ++ (match scn.BeforeHookFailure with
      | some h => execTemplate .hookFailureDiv (.hookFailure h)
      | none => [])
  ++ generateItems scn.Contexts generateContextOrTeardown
  ++ generateItems scn.Items generateItem
  ++ generateItems scn.Teardown generateContextOrTeardown
  ++ (match scn.AfterHookFailure with
      | some h => execTemplate .hookFailureDiv (.hookFailure h)
      | none => [])
  ++ execTemplate .endDiv .nil

/-! ## The scenario container template (`templates.go`, lines 183-185) -/

/-- What executing a template writes, piece by piece: the text between two actions, or the
decimal print of an integer field. -/
inductive Piece where
  | text (s : String)
  | int (i : Int)
  deriving DecidableEq, Repr

def Piece.toString : Piece → String
  | .text s => s
  | .int i => ToString.toString i

/-- The text written for a sequence of pieces. -/
def render (ps : List Piece) : String :=
  String.join (ps.map Piece.toString)

/-- The template `scenarioContainerStartDiv` executed on a scenario.  The comparisons
`eq .ExecStatus 0`, `gt .TableRowIndex 0` and `ne .TableRowIndex -1` are integer
comparisons; the first branch writes one blank before `data-tablerow` and the other two
write two, and the last branch has no line break after the tag. -/
def scenarioContainerStartDiv (scn : scenario) : List Piece :=
  if scn.ExecStatus = 0 then
    [.text "<div class='scenario-container passed"]
    ++ (if scn.TableRowIndex > 0 then [.text " hidden"] else [])
    ++ [.text "'"]
    ++ (if scn.TableRowIndex ≠ -1 then [.text " data-tablerow=", .int scn.TableRowIndex]
        else [])
    ++ [.text ">\n"]
  else if scn.ExecStatus = 1 then
    [.text "<div class='scenario-container failed"]
    ++ (if scn.TableRowIndex > 0 then [.text " hidden"] else [])
    ++ [.text "'"]
    ++ (if scn.TableRowIndex ≠ -1 then [.text "  data-tablerow=", .int scn.TableRowIndex]
        else [])
    ++ [.text ">\n"]
  else
    [.text "<div class='scenario-container skipped"]
    ++ (if scn.TableRowIndex > 0 then [.text " hidden"] else [])
    ++ [.text "'"]
    ++ (if scn.TableRowIndex ≠ -1 then [.text "  data-tablerow=", .int scn.TableRowIndex]
        else [])
    ++ [.text ">"]

/-! ## The incoming result tree (`gauge_messages`) -/

/-- Modelled from the spec: the protobuf message `ProtoHookFailure` of `gauge_messages`
("HookFailure: error message, stack trace, optional screenshot"). -/
structure ProtoHookFailure where
  stackTrace : String
  errorMessage : String
  screenShot : String

/-- Modelled from the spec: the protobuf message `ProtoScenario` of `gauge_messages`
("Scenario: heading, tags, ..."); only the fields read by `generate.go` are kept. -/
structure ProtoScenario where
  scenarioHeading : String
  tags : List String

/-- Modelled from the spec: the protobuf message `ProtoTableDrivenScenario` of
`gauge_messages` (a scenario "iterated across a data table", with its table-row index). -/
structure ProtoTableDrivenScenario where
  scenario : Option ProtoScenario
  tableRowIndex : Int

/-- Modelled from the spec: the protobuf message `ProtoItem` of `gauge_messages`; of the
fields of an item only the two read by `generate.go` are kept. -/
structure ProtoItem where
  scenario : Option ProtoScenario
  tableDrivenScenario : Option ProtoTableDrivenScenario

/-- Modelled from the spec: the protobuf message `ProtoSpec` of `gauge_messages`
("SpecResult: title, source location, tags, ordered sequence of top-level Items"). -/
structure ProtoSpec where
  specHeading : String
  fileName : String
  tags : List String
  items : List ProtoItem

/-- Modelled from the spec: the protobuf message `ProtoSpecResult` of `gauge_messages`. -/
structure ProtoSpecResult where
  protoSpec : Option ProtoSpec
  failed : Bool
  skipped : Bool

/-- Modelled from the spec: the protobuf message `ProtoSuiteResult` of `gauge_messages`
("SuiteResult: overall pass/fail flag, optional pre-suite and post-suite hook failures,
ordered sequence of SpecResult"). -/
structure ProtoSuiteResult where
  specResults : List ProtoSpecResult
  preHookFailure : Option ProtoHookFailure
  postHookFailure : Option ProtoHookFailure
  failed : Bool

/-! The generated getters return the zero value on a `nil` receiver. -/

def ProtoSpecResult.GetProtoSpec (r : ProtoSpecResult) : Option ProtoSpec := r.protoSpec

def ProtoSpec.GetFileName : Option ProtoSpec → String
  | some s => s.fileName
  | none => ""

def ProtoSpec.GetSpecHeading : Option ProtoSpec → String
  | some s => s.specHeading
  | none => ""

def ProtoSpec.GetTags : Option ProtoSpec → List String
  | some s => s.tags
  | none => []

def ProtoSpec.GetItems : Option ProtoSpec → List ProtoItem
  | some s => s.items
  | none => []

def ProtoItem.GetScenario (i : ProtoItem) : Option ProtoScenario := i.scenario

def ProtoItem.GetTableDrivenScenario (i : ProtoItem) : Option ProtoTableDrivenScenario :=
  i.tableDrivenScenario

def ProtoTableDrivenScenario.GetScenario (t : ProtoTableDrivenScenario) :
    Option ProtoScenario := t.scenario

def ProtoScenario.GetTags : Option ProtoScenario → List String
  | some s => s.tags
  | none => []

def ProtoSuiteResult.GetSpecResults (s : ProtoSuiteResult) : List ProtoSpecResult :=
  s.specResults

def ProtoSuiteResult.GetPreHookFailure (s : ProtoSuiteResult) : Option ProtoHookFailure :=
  s.preHookFailure

def ProtoSuiteResult.GetPostHookFailure (s : ProtoSuiteResult) : Option ProtoHookFailure :=
  s.postHookFailure

def ProtoSuiteResult.GetFailed (s : ProtoSuiteResult) : Bool := s.failed

/-! ## Environment: `transform.go`, `ProjectRoot`, the operating system -/

/-- The error value returned by `os.Create`. -/
abbrev Error := String

/-- What `generate.go` uses and does not define. -/
structure Env where
  /-- The package variable `ProjectRoot`. -/
  ProjectRoot : String
  /-- The function `toHTMLFileName` of `transform.go`. -/
  toHTMLFileName : String → String → String
  /-- The function `toOverview` of `transform.go`; the second argument may be `nil`. -/
  toOverview : ProtoSuiteResult → Option ProtoSpecResult → overview
  /-- The function `toSidebar` of `transform.go`; the second argument may be `nil`. -/
  toSidebar : ProtoSuiteResult → Option ProtoSpecResult → sidebar
  /-- The function `toHookFailure` of `transform.go`. -/
  toHookFailure : ProtoHookFailure → String → hookFailure
  /-- The function `toSpecHeader` of `transform.go`. -/
  toSpecHeader : ProtoSpecResult → specHeader
  /-- The function `toSpec` of `transform.go`. -/
  toSpec : ProtoSpecResult → spec
  /-- The variadic `filepath.Join`. -/
  Join : List String → String
  /-- The first result of `filepath.Rel(base, target)`; its error is discarded by the code. -/
  Rel : String → String → String
  /-- The function `filepath.Dir`. -/
  Dir : String → String
  /-- The outcome of `os.Create(path)`: `none` when the file is created, else the error. -/
  Create : String → Option Error
  /-- Whether `CreateDirectory(dir)` returns; when it does not, the process exits with 1. -/
  CreateDirectoryOk : String → Bool

/-! ## Search index (`generate.go`, lines 192-195 and 291-366) -/

structure searchIndex where
  Tags : String → List String
  Specs : String → List String

def newSearchIndex : searchIndex :=
  ⟨fun _ => [], fun _ => []⟩

def searchIndex.hasValueForTag (i : searchIndex) (tag : String) (spec : String) : Bool :=
  (i.Tags tag).any fun s => s == spec

def searchIndex.hasSpec (i : searchIndex) (specHeading : String) (specFileName : String) :
    Bool :=
  (i.Specs specHeading).any fun s => s == specFileName

/-- The assignment `m[key] = append(m[key], value)`. -/
def mapAppend (m : String → List String) (key value : String) : String → List String :=
  fun k => if k = key then m key ++ [value] else m k

/-- The body of both tag loops: insert `specFileName` under `t` unless it is there. -/
def addTag (specFileName : String) (index : searchIndex) (t : String) : searchIndex :=
  if !index.hasValueForTag t specFileName then
    { index with Tags := mapAppend index.Tags t specFileName }
  else index

/-- The closure `addTagsFromScenario` of `generateSearchIndex`. -/
def addTagsFromScenario (specFileName : String) (index : searchIndex)
    (s : Option ProtoScenario) : searchIndex :=
  (ProtoScenario.GetTags s).foldl (addTag specFileName) index

/-- The body of the loop over `spec.GetItems()`. -/
def addTagsFromItem (specFileName : String) (index : searchIndex) (i : ProtoItem) :
    searchIndex :=
  let index1 :=
    match i.GetScenario with
    | some s => addTagsFromScenario specFileName index (some s)
    | none => index
  match i.GetTableDrivenScenario with
  | some tds => addTagsFromScenario specFileName index1 tds.GetScenario
  | none => index1

/-- The body of the loop over `suiteRes.GetSpecResults()`. -/
def addSpecResult (env : Env) (index : searchIndex) (r : ProtoSpecResult) : searchIndex :=
  let spec := r.GetProtoSpec
  let specFileName := env.toHTMLFileName (ProtoSpec.GetFileName spec) env.ProjectRoot
  let index1 := (ProtoSpec.GetTags spec).foldl (addTag specFileName) index
  let index2 := (ProtoSpec.GetItems spec).foldl (addTagsFromItem specFileName) index1
  let specHeading := ProtoSpec.GetSpecHeading spec
  if !index2.hasSpec specHeading specFileName then
    { index2 with Specs := mapAppend index2.Specs specHeading specFileName }
  else index2

/-- The index that `generateSearchIndex` builds (lines 331-359) before serialising it. -/
def buildIndex (env : Env) (suiteRes : ProtoSuiteResult) : searchIndex :=
  suiteRes.GetSpecResults.foldl (addSpecResult env) newSearchIndex

/-! ## Vocabulary used to state the search-index properties -/

/-- The tags that one item contributes: those of its scenario and those of the scenario of
its table-driven scenario. -/
def itemTags (i : ProtoItem) : List String :=
  (match i.GetScenario with
   | some s => ProtoScenario.GetTags (some s)
   | none => [])
  ++ (match i.GetTableDrivenScenario with
      | some tds => ProtoScenario.GetTags tds.GetScenario
      | none => [])

/-- All tags that one specification result contributes: its own and those of its items. -/
def contributedTags (r : ProtoSpecResult) : List String :=
  ProtoSpec.GetTags r.GetProtoSpec ++ (ProtoSpec.GetItems r.GetProtoSpec).flatMap itemTags

/-- The output location of a specification result. -/
def location (env : Env) (r : ProtoSpecResult) : String :=
  env.toHTMLFileName (ProtoSpec.GetFileName r.GetProtoSpec) env.ProjectRoot

/-- The condition under which `generateItem` emits the step failure block (line 498). -/
def wantsFailure (s : step) : Prop :=
  s.Res.Status = fail ∧ s.Res.ErrorMessage ≠ "" ∧ s.Res.StackTrace ≠ ""

/-- The condition under which `generateItem` emits the skip-reason block (line 507). -/
def wantsSkipReason (s : step) : Prop :=
  s.Res.Status = skip ∧ s.Res.SkippedReason ≠ ""

instance (s : step) : Decidable (wantsFailure s) :=
  inferInstanceAs (Decidable (_ ∧ _))

instance (s : step) : Decidable (wantsSkipReason s) :=
  inferInstanceAs (Decidable (_ ∧ _))

/-! ## Pages (`generate.go`, lines 316-323 and 368-454) -/

/-- The assertion `e.(buildError)` is reflected in the element type of the list. -/
def containsParseErrors : List buildError → Bool
  | [] => false
  | e :: rest => if e.isParseError then true else containsParseErrors rest

/-- Whether `tmpl.Execute(w, data)` returns without error, for each template and value. -/
abbrev Engine := Template → Data → Bool

/-- The engine of this repository.  The template `reportOverviewTag` (`templates.go`, lines
37-97) reads the fields `.TotalSpecs`, `.Failed`, `.Passed`, `.Skipped` and `.EnvVars`; the
struct `overview` (`generate.go`, lines 44-53) has none of them, so executing the template
on an `*overview` returns an error.  The page templates `htmlPageStartTag` and
`htmlPageEndWithJS` are registered in `generate.go` and not defined in `templates.go`:
`missing` decides them.  Every other call in `generate.go` hands a template a value that has
the fields the template reads. -/
def executes (missing : Engine) : Engine
  | .reportOverviewTag, .overview _ => false
  | .htmlPageStartTag, data => missing .htmlPageStartTag data
  | .htmlPageEndWithJS, data => missing .htmlPageEndWithJS data
  | _, _ => true

/-- What a sequence of `execTemplate` calls leaves behind: the sections executed, in order,
and whether a call has ended the process through `log.Fatalf` (lines 244-247). -/
structure Rendered where
  out : List Section
  exited : Bool

/-- Calls that all return. -/
def Rendered.done (out : List Section) : Rendered := ⟨out, false⟩

/-- One thing after another: nothing runs once the process has exited. -/
def Rendered.andThen (a b : Rendered) : Rendered :=
  if a.exited then a else ⟨a.out ++ b.out, b.exited⟩

/-- A sequence of statements. -/
def Rendered.seq : List Rendered → Rendered
  | [] => ⟨[], false⟩
  | r :: rest => r.andThen (Rendered.seq rest)

/-- The function `execTemplate` with both of its ways out: when `Execute` returns an error
the process exits and the section does not count as written. -/
def execTemplateOrFatal (exec : Engine) (tmplName : Template) (data : Data) : Rendered :=
  if exec tmplName data then ⟨execTemplate tmplName data, false⟩ else ⟨[], true⟩

def generateOverview (exec : Engine) (o : overview) : Rendered :=
  Rendered.seq
    [execTemplateOrFatal exec .htmlPageStartTag (.overview o),
     execTemplateOrFatal exec .reportOverviewTag (.overview o)]

def generatePageFooter (exec : Engine) (o : overview) : Rendered :=
  Rendered.seq
    [execTemplateOrFatal exec .endDiv .nil,
     execTemplateOrFatal exec .mainEndTag .nil,
     execTemplateOrFatal exec .bodyFooterTag .nil,
     execTemplateOrFatal exec .htmlPageEndWithJS (.overview o)]

def generateSpecDiv (env : Env) (res : ProtoSpecResult) : List Section :=
  let specHeader := env.toSpecHeader res
  let spec := env.toSpec res
  let w :=
    execTemplate .specHeaderStartTag (.specHeader specHeader)
    ++ execTemplate .tagsDiv (.specHeader specHeader)
    ++ execTemplate .headerEndTag .nil
    ++ execTemplate .specsItemsContainerDiv .nil
  if containsParseErrors spec.Errors then
    w ++ execTemplate .specErrorDiv (.spec spec)
      ++ execTemplate .endDiv .nil
  else
    w ++ (match spec.BeforeHookFailure with
          | some h => execTemplate .hookFailureDiv (.hookFailure h)
          | none => [])
      ++ execTemplate .specsItemsContentsDiv .nil
      ++ execTemplate .specCommentsAndTableTag (.spec spec)
      ++ (match spec.BeforeHookFailure with
          | none => spec.Scenarios.foldl (fun w scn => w ++ generateScenario scn) []
          | some _ => [])
      ++ execTemplate .endDiv .nil
      ++ execTemplate .endDiv .nil
      ++ (match spec.AfterHookFailure with
          | some h => execTemplate .hookFailureDiv (.hookFailure h)
          | none => [])
      ++ execTemplate .endDiv .nil

def generateIndexPage (env : Env) (exec : Engine) (suiteRes : ProtoSuiteResult) : Rendered :=
  let overview := env.toOverview suiteRes none
  Rendered.seq
    [generateOverview exec overview,
     (match suiteRes.GetPostHookFailure with
      | some h =>
        execTemplateOrFatal exec .hookFailureDiv
          (.hookFailure (env.toHookFailure h "After Suite"))
      | none => Rendered.done []),
     execTemplateOrFatal exec .specsStartDiv .nil,
     execTemplateOrFatal exec .sidebarDiv (.sidebar (env.toSidebar suiteRes none)),
     (if !suiteRes.GetFailed then execTemplateOrFatal exec .congratsDiv .nil
      else Rendered.done []),
     execTemplateOrFatal exec .endDiv .nil,
     generatePageFooter exec overview]

/-- The sections of `generateSpecDiv` are taken as written, see the conventions at the top. -/
def generateSpecPage (env : Env) (exec : Engine) (suiteRes : ProtoSuiteResult)
    (specRes : ProtoSpecResult) : Rendered :=
  let overview := env.toOverview suiteRes (some specRes)
  Rendered.seq
    [generateOverview exec overview,
     (match suiteRes.GetPreHookFailure with
      | some h =>
        execTemplateOrFatal exec .hookFailureDiv
          (.hookFailure (env.toHookFailure h "Before Suite"))
      | none => Rendered.done []),
     (match suiteRes.GetPostHookFailure with
      | some h =>
        execTemplateOrFatal exec .hookFailureDiv
          (.hookFailure (env.toHookFailure h "After Suite"))
      | none => Rendered.done []),
     (match suiteRes.GetPreHookFailure with
      | none =>
        Rendered.seq
          [execTemplateOrFatal exec .specsStartDiv .nil,
           execTemplateOrFatal exec .sidebarDiv
             (.sidebar (env.toSidebar suiteRes (some specRes))),
           Rendered.done (generateSpecDiv env specRes),
           execTemplateOrFatal exec .endDiv .nil]
      | some _ => Rendered.done []),
     generatePageFooter exec overview]

/-! ## Report orchestration (`generate.go`, lines 254-289 and 325-366) -/

/-- What `GenerateReports` does to the outside world, in the program order of the calling
goroutine. -/
inductive Event where
  /-- A call of `os.Create` in `GenerateReports` that returned a file: a page document. -/
  | create (path : String)
  /-- The call of `os.Create` in `generateSearchIndex`, when it returned a file. -/
  | createSearchIndex (path : String)
  /-- A call of `CreateDirectory` that returned. -/
  | createDirectory (dir : String)
  /-- Sections written to a file by the calling goroutine itself. -/
  | write (path : String) (out : List Section)
  /-- The statement `go generateIndexPage(suiteRes, f, &wg)`: a render task is started; the
  value says what the task writes and whether it ends the process. -/
  | goIndexPage (path : String) (page : Rendered)
  /-- The statement `go generateSpecPage(suiteRes, res, sf, &wg)`. -/
  | goSpecPage (res : ProtoSpecResult) (path : String) (page : Rendered)
  /-- The statement `wg.Wait()`, when it returns: every started task has finished. -/
  | wait
  /-- The statement `f.WriteString("var index = " + json + ";")` on the index asset. -/
  | writeString (path : String) (index : searchIndex)

/-- How an invocation ends: `return nil`, `return err`, or the end of the process, by
`os.Exit(1)` in `CreateDirectory` or by `log.Fatalf` in `execTemplate`. -/
inductive Outcome where
  | ok
  | error (err : Error)
  | exit
  deriving DecidableEq, Repr

structure Run where
  trace : List Event
  outcome : Outcome

/-- Serialising a `map[string][]string` cannot fail, so `json.Marshal` returns no error. -/
def generateSearchIndex (env : Env) (suiteRes : ProtoSuiteResult) (reportDir : String) : Run :=
  let dir := env.Join [reportDir, "js"]
  if !env.CreateDirectoryOk dir then ⟨[], .exit⟩
  else
    let f := env.Join [reportDir, "js", "search_index.js"]
    match env.Create f with
    | some err => ⟨[.createDirectory dir], .error err⟩
    | none =>
      ⟨[.createDirectory dir, .createSearchIndex f,
          .writeString f (buildIndex env suiteRes)], .ok⟩

/-- The loop over `specRes` in `GenerateReports`, from a given position on. -/
def specPagesLoop (env : Env) (exec : Engine) (suiteRes : ProtoSuiteResult)
    (reportDir : String) : List ProtoSpecResult → Run
  | [] => ⟨[], .ok⟩
  | res :: rest =>
    let relPath := env.Rel env.ProjectRoot (ProtoSpec.GetFileName res.GetProtoSpec)
    let dir := env.Join [reportDir, env.Dir relPath]
    if !env.CreateDirectoryOk dir then ⟨[], .exit⟩
    else
      let sf := env.Join
        [reportDir, env.toHTMLFileName (ProtoSpec.GetFileName res.GetProtoSpec) env.ProjectRoot]
      match env.Create sf with
      | some err => ⟨[.createDirectory dir], .error err⟩
      | none =>
        let r := specPagesLoop env exec suiteRes reportDir rest
        ⟨[.createDirectory dir, .create sf,
            .goSpecPage res sf (generateSpecPage env exec suiteRes res)] ++ r.trace, r.outcome⟩

/-- Whether one of the tasks started ends the process. -/
def anyTaskExits : List Event → Bool
  | [] => false
  | .goIndexPage _ page :: rest => page.exited || anyTaskExits rest
  | .goSpecPage _ _ page :: rest => page.exited || anyTaskExits rest
  | _ :: rest => anyTaskExits rest

/-- The calling goroutine of `GenerateReports`, statement by statement.  A task that ends
the process is given as long as it can take: the calling goroutine runs on until it returns
or reaches `wg.Wait()`, which does not return when a task never calls `wg.Done()`. -/
def mainGoroutine (env : Env) (exec : Engine) (suiteRes : ProtoSuiteResult)
    (reportDir : String) : Run :=
  let f := env.Join [reportDir, "index.html"]
  match env.Create f with
  | some err => ⟨[], .error err⟩
  | none =>
    let pages : Run :=
      match suiteRes.GetPreHookFailure with
      | some pre =>
        let overview := env.toOverview suiteRes none
        let page := Rendered.seq
          [generateOverview exec overview,
           execTemplateOrFatal exec .hookFailureDiv
             (.hookFailure (env.toHookFailure pre "Before Suite")),
           (match suiteRes.GetPostHookFailure with
            | some post =>
              execTemplateOrFatal exec .hookFailureDiv
                (.hookFailure (env.toHookFailure post "After Suite"))
            | none => Rendered.done []),
           generatePageFooter exec overview]
        ⟨[.write f page.out], if page.exited then .exit else .ok⟩
      | none =>
        let loop := specPagesLoop env exec suiteRes reportDir suiteRes.GetSpecResults
        let tasks := [.goIndexPage f (generateIndexPage env exec suiteRes)] ++ loop.trace
        match loop.outcome with
        | .ok => if anyTaskExits tasks then ⟨tasks, .exit⟩ else ⟨tasks ++ [.wait], .ok⟩
        | o => ⟨tasks, o⟩
    match pages.outcome with
    | .ok =>
      let index := generateSearchIndex env suiteRes reportDir
      ⟨[.create f] ++ pages.trace ++ index.trace, index.outcome⟩
    | o => ⟨[.create f] ++ pages.trace, o⟩

/-- The number of events up to and including the first `go` statement whose task ends the
process. -/
def firstExitingTask : List Event → Option Nat
  | [] => none
  | .goIndexPage _ page :: rest =>
    if page.exited then some 1 else (firstExitingTask rest).map (· + 1)
  | .goSpecPage _ _ page :: rest =>
    if page.exited then some 1 else (firstExitingTask rest).map (· + 1)
  | _ :: rest => (firstExitingTask rest).map (· + 1)

/-- A run of the calling goroutine, cut where a task ends the process: `sched` is the number
of further events of the calling goroutine that come before that.  When the calling
goroutine has returned by then, its run stands. -/
def cutAtExit (sched : Nat) (main : Run) : Run :=
  match firstExitingTask main.trace with
  | none => main
  | some n =>
    if n + sched ≤ main.trace.length then ⟨main.trace.take (n + sched), .exit⟩ else main

/-- The function `GenerateReports` under an engine and a schedule of the goroutines. -/
def GenerateReports (env : Env) (exec : Engine) (sched : Nat) (suiteRes : ProtoSuiteResult)
    (reportDir : String) : Run :=
  cutAtExit sched (mainGoroutine env exec suiteRes reportDir)

/-- The page documents created, in order. -/
def createdPages : List Event → List String
  | [] => []
  | .create path :: rest => path :: createdPages rest
  | _ :: rest => createdPages rest

/-- The search-index assets created, in order. -/
def createdSearchIndexes : List Event → List String
  | [] => []
  | .createSearchIndex path :: rest => path :: createdSearchIndexes rest
  | _ :: rest => createdSearchIndexes rest

/-- The specification results for which a render task was started, in order. -/
def specTasks : List Event → List ProtoSpecResult
  | [] => []
  | .goSpecPage res _ _ :: rest => res :: specTasks rest
  | _ :: rest => specTasks rest

/-- The directory that `GenerateReports` makes sure of before it creates a page. -/
def pageDir (env : Env) (reportDir : String) (res : ProtoSpecResult) : String :=
  env.Join [reportDir, env.Dir (env.Rel env.ProjectRoot (ProtoSpec.GetFileName res.GetProtoSpec))]

/-- The path of the page document of a specification result. -/
def pagePath (env : Env) (reportDir : String) (res : ProtoSpecResult) : String :=
  env.Join [reportDir, env.toHTMLFileName (ProtoSpec.GetFileName res.GetProtoSpec) env.ProjectRoot]

/-- The events of one round of the loop over `specRes` in which nothing fails. -/
def specPageEvents (env : Env) (exec : Engine) (suiteRes : ProtoSuiteResult)
    (reportDir : String) (res : ProtoSpecResult) : List Event :=
  [.createDirectory (pageDir env reportDir res),
    .create (pagePath env reportDir res),
    .goSpecPage res (pagePath env reportDir res) (generateSpecPage env exec suiteRes res)]

/-- The number of render tasks started. -/
def tasksStarted : List Event → Nat
  | [] => 0
  | .goIndexPage _ _ :: rest => tasksStarted rest + 1
  | .goSpecPage _ _ _ :: rest => tasksStarted rest + 1
  | _ :: rest => tasksStarted rest

/-- The number of times `wg.Wait()` has returned. -/
def waits : List Event → Nat
  | [] => 0
  | .wait :: rest => waits rest + 1
  | _ :: rest => waits rest

/-! ## Sample inputs -/

def sampleHook : hookFailure := ⟨"Before Spec", "boom", "", "at line 3"⟩

def sampleScenario : scenario :=
  { Heading := "login", ExecTime := "1s", Tags := ["smoke"], ExecStatus := pass,
    Contexts := [], Items := [.comment ⟨"note"⟩], Teardown := [],
    BeforeHookFailure := none, AfterHookFailure := none, TableRowIndex := -1 }

/-- A specification with a validation error, a parse error and a scenario. -/
def brokenSpec : spec :=
  { CommentsBeforeTable := ["intro"], Table := none, CommentsAfterTable := [],
    Scenarios := [sampleScenario], BeforeHookFailure := some sampleHook,
    AfterHookFailure := some sampleHook,
    Errors := [⟨validationError, "a.spec", 4, "duplicate"⟩, ⟨parseError, "a.spec", 9, "bad"⟩] }

/-- A specification without errors whose pre-hook failed; it has comments and a scenario. -/
def preHookFailedSpec : spec :=
  { CommentsBeforeTable := ["intro"], Table := none, CommentsAfterTable := [],
    Scenarios := [sampleScenario], BeforeHookFailure := some sampleHook,
    AfterHookFailure := none, Errors := [] }

/-- A specification without errors whose post-hook failed. -/
def postHookFailedSpec : spec :=
  { CommentsBeforeTable := [], Table := none, CommentsAfterTable := [],
    Scenarios := [sampleScenario], BeforeHookFailure := none,
    AfterHookFailure := some sampleHook, Errors := [] }

def failedStep : step :=
  { Fragments := [], PreHookFailure := none, PostHookFailure := none,
    Res := ⟨fail, "at line 7", "", "assertion failed", "2s", "", []⟩ }

def skippedStep : step :=
  { Fragments := [], PreHookFailure := none, PostHookFailure := none,
    Res := ⟨skip, "", "", "", "", "previous step failed", []⟩ }

def specA : ProtoSpecResult :=
  ⟨some ⟨"Spec A", "a.spec", ["fast"], [⟨some ⟨"login", ["fast", "smoke"]⟩, none⟩]⟩, false, false⟩

def specB : ProtoSpecResult :=
  ⟨some ⟨"Spec B", "b.spec", [], []⟩, true, false⟩

def specC : ProtoSpecResult :=
  ⟨some ⟨"Spec C", "c.spec", ["fast"], []⟩, false, false⟩

/-- A suite of three specifications without hook failures. -/
def threeSpecSuite : ProtoSuiteResult := ⟨[specA, specB, specC], none, none, true⟩

/-- An environment in which every file and directory can be created. -/
def sampleEnv (sp : spec) : Env where
  ProjectRoot := "/proj"
  toHTMLFileName := fun fileName _ => fileName ++ ".html"
  toOverview := fun _ _ => ⟨"proj", "default", "", 0, "3s", "now", none, ""⟩
  toSidebar := fun s _ => ⟨s.preHookFailure.isSome, []⟩
  toHookFailure := fun h name => ⟨name, h.errorMessage, h.screenShot, h.stackTrace⟩
  toSpecHeader := fun r => ⟨ProtoSpec.GetSpecHeading r.protoSpec, "1s", ProtoSpec.GetFileName r.protoSpec,
    ProtoSpec.GetTags r.protoSpec, none⟩
  toSpec := fun _ => sp
  Join := fun elems => "/".intercalate elems
  Rel := fun _ target => target
  Dir := fun _ => "."
  Create := fun _ => none
  CreateDirectoryOk := fun _ => true

/-- The same environment, except that the page of `b.spec` cannot be created. -/
def denyingEnv : Env :=
  { sampleEnv postHookFailedSpec with
    Create := fun path => if path = "out/b.spec.html" then some "permission denied" else none }

/-- A specification without errors, hook failures or scenarios. -/
def plainSpec : spec :=
  { CommentsBeforeTable := ["intro"], Table := none, CommentsAfterTable := [],
    Scenarios := [], BeforeHookFailure := none, AfterHookFailure := none, Errors := [] }

/-- A concept with a comment, a failed step and a nested concept below it. -/
def nestedItem : item :=
  .concept skippedStep
    [.comment ⟨"first"⟩, .step failedStep, .concept failedStep [.comment ⟨"inner"⟩]]

/-- A scenario with a context step, two body items, a teardown step and both hook
failures. -/
def fullScenario : scenario :=
  { Heading := "checkout", ExecTime := "4s", Tags := [], ExecStatus := fail,
    Contexts := [.step skippedStep], Items := [.comment ⟨"body"⟩, nestedItem],
    Teardown := [.comment ⟨"cleanup"⟩],
    BeforeHookFailure := some sampleHook, AfterHookFailure := some sampleHook,
    TableRowIndex := 1 }

/-- An engine on which every template executes. -/
def allExecute : Engine := fun _ _ => true

/-! ## Vocabulary used to state the rendering properties -/

mutual

/-- The number of items in an item tree. -/
def item.nodes : item → Nat
  | .step _ => 1
  | .comment _ => 1
  | .concept _ Items => 1 + item.nodesOfList Items

/-- The number of items in a sequence of item trees. -/
def item.nodesOfList : List item → Nat
  | [] => 0
  | i :: rest => item.nodes i + item.nodesOfList rest

end

/-- How often a template occurs in a sequence of sections. -/
def occurrences (t : Template) (out : List Section) : Nat :=
  (names out).count t

/-! # Auxiliary facts

## Search index -/

theorem hasValueForTag_iff (i : searchIndex) (tag spec : String) :
    i.hasValueForTag tag spec = true ↔ spec ∈ i.Tags tag := by
  simp [searchIndex.hasValueForTag, List.any_eq_true]

theorem hasSpec_iff (i : searchIndex) (h f : String) :
    i.hasSpec h f = true ↔ f ∈ i.Specs h := by
  simp [searchIndex.hasSpec, List.any_eq_true]

theorem mem_mapAppend (m : String → List String) (key value k L : String) :
    L ∈ mapAppend m key value k ↔ L ∈ m k ∨ (k = key ∧ L = value) := by
  unfold mapAppend
  by_cases h : k = key
  · subst h; simp
  · simp [h]

theorem nodup_mapAppend (m : String → List String) (key value : String)
    (hm : ∀ k, (m k).Nodup) (hv : value ∉ m key) (k : String) :
    (mapAppend m key value k).Nodup := by
  unfold mapAppend
  by_cases h : k = key
  · simp only [h, if_true]
    exact List.Nodup.append (hm key) (List.nodup_singleton value) (by simpa using hv)
  · simpa [h] using hm k

theorem addTag_Specs (f : String) (idx : searchIndex) (t : String) :
    (addTag f idx t).Specs = idx.Specs := by
  unfold addTag
  split <;> rfl

theorem mem_addTag (f : String) (idx : searchIndex) (t k L : String) :
    L ∈ (addTag f idx t).Tags k ↔ L ∈ idx.Tags k ∨ (k = t ∧ L = f) := by
  unfold addTag
  by_cases h : idx.hasValueForTag t f = true
  · have hmem := (hasValueForTag_iff idx t f).1 h
    simp only [h, Bool.not_true, Bool.false_eq_true, if_false]
    constructor
    · exact fun hL => Or.inl hL
    · rintro (hL | ⟨rfl, rfl⟩)
      · exact hL
      · exact hmem
  · have h' : idx.hasValueForTag t f = false := by simpa using h
    simp only [h', Bool.not_false, if_true]
    exact mem_mapAppend idx.Tags t f k L

theorem nodup_addTag (f : String) (idx : searchIndex) (t : String)
    (hm : ∀ k, (idx.Tags k).Nodup) (k : String) : ((addTag f idx t).Tags k).Nodup := by
  unfold addTag
  by_cases h : idx.hasValueForTag t f = true
  · simpa [h] using hm k
  · have h' : idx.hasValueForTag t f = false := by simpa using h
    have hv : f ∉ idx.Tags t := fun hf => h ((hasValueForTag_iff idx t f).2 hf)
    simp only [h', Bool.not_false, if_true]
    exact nodup_mapAppend idx.Tags t f hm hv k

theorem foldl_addTag_Specs (f : String) (ts : List String) (idx : searchIndex) :
    (ts.foldl (addTag f) idx).Specs = idx.Specs := by
  induction ts generalizing idx with
  | nil => rfl
  | cons t ts ih => simp only [List.foldl_cons]; rw [ih, addTag_Specs]

theorem mem_foldl_addTag (f : String) (ts : List String) (idx : searchIndex) (k L : String) :
    L ∈ (ts.foldl (addTag f) idx).Tags k ↔ L ∈ idx.Tags k ∨ (k ∈ ts ∧ L = f) := by
  induction ts generalizing idx with
  | nil => simp
  | cons t ts ih =>
    simp only [List.foldl_cons, List.mem_cons]
    rw [ih, mem_addTag]
    tauto

theorem nodup_foldl_addTag (f : String) (ts : List String) (idx : searchIndex)
    (hm : ∀ k, (idx.Tags k).Nodup) (k : String) :
    ((ts.foldl (addTag f) idx).Tags k).Nodup := by
  induction ts generalizing idx with
  | nil => exact hm k
  | cons t ts ih =>
    simp only [List.foldl_cons]
    exact ih _ (nodup_addTag f idx t hm)

theorem addTagsFromItem_Specs (f : String) (idx : searchIndex) (i : ProtoItem) :
    (addTagsFromItem f idx i).Specs = idx.Specs := by
  unfold addTagsFromItem addTagsFromScenario
  cases i.GetScenario <;> cases i.GetTableDrivenScenario <;> simp [foldl_addTag_Specs]

theorem mem_addTagsFromItem (f : String) (idx : searchIndex) (i : ProtoItem) (k L : String) :
    L ∈ (addTagsFromItem f idx i).Tags k ↔ L ∈ idx.Tags k ∨ (k ∈ itemTags i ∧ L = f) := by
  unfold addTagsFromItem addTagsFromScenario itemTags
  cases i.GetScenario <;> cases i.GetTableDrivenScenario <;>
    (simp only [mem_foldl_addTag, List.mem_append, List.not_mem_nil, false_and, or_false,
      false_or]; try tauto)

theorem nodup_addTagsFromItem (f : String) (idx : searchIndex) (i : ProtoItem)
    (hm : ∀ k, (idx.Tags k).Nodup) (k : String) :
    ((addTagsFromItem f idx i).Tags k).Nodup := by
  unfold addTagsFromItem addTagsFromScenario
  cases i.GetScenario <;> cases i.GetTableDrivenScenario
  · exact hm k
  · exact nodup_foldl_addTag f _ idx hm k
  · exact nodup_foldl_addTag f _ idx hm k
  · exact nodup_foldl_addTag f _ _ (nodup_foldl_addTag f _ idx hm) k

theorem foldl_addTagsFromItem_Specs (f : String) (is : List ProtoItem) (idx : searchIndex) :
    (is.foldl (addTagsFromItem f) idx).Specs = idx.Specs := by
  induction is generalizing idx with
  | nil => rfl
  | cons i is ih => simp only [List.foldl_cons]; rw [ih, addTagsFromItem_Specs]

theorem mem_foldl_addTagsFromItem (f : String) (is : List ProtoItem) (idx : searchIndex)
    (k L : String) :
    L ∈ (is.foldl (addTagsFromItem f) idx).Tags k ↔
      L ∈ idx.Tags k ∨ ((∃ i ∈ is, k ∈ itemTags i) ∧ L = f) := by
  induction is generalizing idx with
  | nil => simp
  | cons i is ih =>
    simp only [List.foldl_cons, List.mem_cons, exists_eq_or_imp]
    rw [ih, mem_addTagsFromItem]
    tauto

theorem nodup_foldl_addTagsFromItem (f : String) (is : List ProtoItem) (idx : searchIndex)
    (hm : ∀ k, (idx.Tags k).Nodup) (k : String) :
    ((is.foldl (addTagsFromItem f) idx).Tags k).Nodup := by
  induction is generalizing idx with
  | nil => exact hm k
  | cons i is ih =>
    simp only [List.foldl_cons]
    exact ih _ (nodup_addTagsFromItem f idx i hm)

theorem mem_contributedTags (r : ProtoSpecResult) (k : String) :
    k ∈ contributedTags r ↔
      k ∈ ProtoSpec.GetTags r.GetProtoSpec ∨ ∃ i ∈ ProtoSpec.GetItems r.GetProtoSpec, k ∈ itemTags i := by
  simp [contributedTags, List.mem_flatMap]

theorem mem_addSpecResult_Tags (env : Env) (idx : searchIndex) (r : ProtoSpecResult)
    (k L : String) :
    L ∈ (addSpecResult env idx r).Tags k ↔
      L ∈ idx.Tags k ∨ (k ∈ contributedTags r ∧ L = location env r) := by
  have key : (addSpecResult env idx r).Tags =
      ((ProtoSpec.GetItems r.GetProtoSpec).foldl (addTagsFromItem (location env r))
        ((ProtoSpec.GetTags r.GetProtoSpec).foldl (addTag (location env r)) idx)).Tags := by
    unfold addSpecResult location
    simp only
    split <;> rfl
  rw [key, mem_foldl_addTagsFromItem, mem_foldl_addTag, mem_contributedTags]
  tauto

theorem nodup_addSpecResult_Tags (env : Env) (idx : searchIndex) (r : ProtoSpecResult)
    (hm : ∀ k, (idx.Tags k).Nodup) (k : String) :
    ((addSpecResult env idx r).Tags k).Nodup := by
  have key : (addSpecResult env idx r).Tags =
      ((ProtoSpec.GetItems r.GetProtoSpec).foldl (addTagsFromItem (location env r))
        ((ProtoSpec.GetTags r.GetProtoSpec).foldl (addTag (location env r)) idx)).Tags := by
    unfold addSpecResult location
    simp only
    split <;> rfl
  rw [key]
  exact nodup_foldl_addTagsFromItem _ _ _ (nodup_foldl_addTag _ _ idx hm) k

theorem addSpecResult_Specs (env : Env) (idx : searchIndex) (r : ProtoSpecResult) :
    (addSpecResult env idx r).Specs =
      if idx.hasSpec (ProtoSpec.GetSpecHeading r.GetProtoSpec) (location env r) then idx.Specs
      else mapAppend idx.Specs (ProtoSpec.GetSpecHeading r.GetProtoSpec) (location env r) := by
  unfold addSpecResult location
  simp only [searchIndex.hasSpec, foldl_addTagsFromItem_Specs, foldl_addTag_Specs]
  by_cases hb : ((idx.Specs (ProtoSpec.GetSpecHeading r.GetProtoSpec)).any
      fun s => s == env.toHTMLFileName (ProtoSpec.GetFileName r.GetProtoSpec) env.ProjectRoot) = true
  · rw [if_neg (by rw [hb]; decide), if_pos hb, foldl_addTagsFromItem_Specs, foldl_addTag_Specs]
  · rw [if_neg hb, if_pos (by rw [Bool.not_eq_true] at hb; rw [hb]; rfl)]

theorem mem_addSpecResult_Specs (env : Env) (idx : searchIndex) (r : ProtoSpecResult)
    (h L : String) :
    L ∈ (addSpecResult env idx r).Specs h ↔
      L ∈ idx.Specs h ∨ (h = ProtoSpec.GetSpecHeading r.GetProtoSpec ∧ L = location env r) := by
  rw [addSpecResult_Specs]
  by_cases hs : idx.hasSpec (ProtoSpec.GetSpecHeading r.GetProtoSpec) (location env r) = true
  · have hmem := (hasSpec_iff idx _ _).1 hs
    simp only [hs, if_true]
    constructor
    · exact fun hL => Or.inl hL
    · rintro (hL | ⟨rfl, rfl⟩)
      · exact hL
      · exact hmem
  · simp only [hs, if_false]
    exact mem_mapAppend _ _ _ _ _

theorem nodup_addSpecResult_Specs (env : Env) (idx : searchIndex) (r : ProtoSpecResult)
    (hm : ∀ h, (idx.Specs h).Nodup) (h : String) :
    ((addSpecResult env idx r).Specs h).Nodup := by
  rw [addSpecResult_Specs]
  by_cases hs : idx.hasSpec (ProtoSpec.GetSpecHeading r.GetProtoSpec) (location env r) = true
  · simpa [hs] using hm h
  · have hv : location env r ∉ idx.Specs (ProtoSpec.GetSpecHeading r.GetProtoSpec) :=
      fun hf => hs ((hasSpec_iff idx _ _).2 hf)
    simp only [hs, if_false]
    exact nodup_mapAppend _ _ _ hm hv h

theorem foldl_addSpecResult_nodup (env : Env) (rs : List ProtoSpecResult) (idx : searchIndex)
    (ht : ∀ k, (idx.Tags k).Nodup) (hs : ∀ h, (idx.Specs h).Nodup) :
    (∀ k, ((rs.foldl (addSpecResult env) idx).Tags k).Nodup) ∧
      ∀ h, ((rs.foldl (addSpecResult env) idx).Specs h).Nodup := by
  induction rs generalizing idx with
  | nil => exact ⟨ht, hs⟩
  | cons r rs ih =>
    simp only [List.foldl_cons]
    exact ih _ (nodup_addSpecResult_Tags env idx r ht) (nodup_addSpecResult_Specs env idx r hs)

theorem mem_foldl_addSpecResult_Tags (env : Env) (rs : List ProtoSpecResult)
    (idx : searchIndex) (k L : String) :
    L ∈ (rs.foldl (addSpecResult env) idx).Tags k ↔
      L ∈ idx.Tags k ∨ ∃ r ∈ rs, k ∈ contributedTags r ∧ L = location env r := by
  induction rs generalizing idx with
  | nil => simp
  | cons r rs ih =>
    simp only [List.foldl_cons, List.mem_cons, exists_eq_or_imp]
    rw [ih, mem_addSpecResult_Tags]
    tauto

theorem mem_foldl_addSpecResult_Specs (env : Env) (rs : List ProtoSpecResult)
    (idx : searchIndex) (h L : String) :
    L ∈ (rs.foldl (addSpecResult env) idx).Specs h ↔
      L ∈ idx.Specs h ∨ ∃ r ∈ rs, h = ProtoSpec.GetSpecHeading r.GetProtoSpec ∧ L = location env r := by
  induction rs generalizing idx with
  | nil => simp
  | cons r rs ih =>
    simp only [List.foldl_cons, List.mem_cons, exists_eq_or_imp]
    rw [ih, mem_addSpecResult_Specs]
    tauto

theorem mem_itemTags (i : ProtoItem) (k : String) :
    k ∈ itemTags i ↔
      (∃ s, i.scenario = some s ∧ k ∈ s.tags) ∨
      (∃ tds s, i.tableDrivenScenario = some tds ∧ tds.scenario = some s ∧ k ∈ s.tags) := by
  obtain ⟨sc, td⟩ := i
  cases sc with
  | none =>
    cases td with
    | none => simp [itemTags, ProtoItem.GetScenario, ProtoItem.GetTableDrivenScenario]
    | some tds =>
      obtain ⟨ts, n⟩ := tds
      cases ts <;>
        simp [itemTags, ProtoItem.GetScenario, ProtoItem.GetTableDrivenScenario,
          ProtoTableDrivenScenario.GetScenario, ProtoScenario.GetTags]
  | some s =>
    cases td with
    | none =>
      simp [itemTags, ProtoItem.GetScenario, ProtoItem.GetTableDrivenScenario, ProtoScenario.GetTags]
    | some tds =>
      obtain ⟨ts, n⟩ := tds
      cases ts <;>
        simp [itemTags, ProtoItem.GetScenario, ProtoItem.GetTableDrivenScenario,
          ProtoTableDrivenScenario.GetScenario, ProtoScenario.GetTags]

/-! ## Sections -/

theorem foldl_append_eq_flatMap {α β : Type} (f : α → List β) (l : List α) (init : List β) :
    l.foldl (fun w x => w ++ f x) init = init ++ l.flatMap f := by
  induction l generalizing init with
  | nil => simp
  | cons x l ih => simp [List.foldl_cons, ih, List.flatMap_cons, List.append_assoc]

theorem containsParseErrors_iff (errors : List buildError) :
    containsParseErrors errors = true ↔ ∃ e ∈ errors, e.isParseError = true := by
  induction errors with
  | nil => simp [containsParseErrors]
  | cons e rest ih =>
    unfold containsParseErrors
    by_cases h : e.isParseError = true
    · simp [h]
    · simp [h, ih]

theorem names_generateItem_step (s : step) :
    names (generateItem (.step s)) =
      [.stepStartDiv, .stepBodyDiv]
      ++ (if s.PreHookFailure.isSome then [.hookFailureDiv] else [])
      ++ (if wantsFailure s then [.stepFailureDiv] else [])
      ++ ((if s.PostHookFailure.isSome then [.hookFailureDiv] else [])
          ++ [.messageDiv, .stepEndDiv]
          ++ (if wantsSkipReason s then [.skippedReasonDiv] else [])) := by
  unfold generateItem names execTemplate wantsFailure wantsSkipReason
  cases s.PreHookFailure <;> cases s.PostHookFailure <;>
    simp only [Option.isSome_none, Option.isSome_some, Bool.false_eq_true, if_true, if_false] <;>
    split_ifs <;> simp

theorem generateItemsOfConcept_eq (items : List item) :
    generateItemsOfConcept items = generateItems items generateItem := by
  unfold generateItems
  rw [foldl_append_eq_flatMap]
  induction items with
  | nil => rfl
  | cons i rest ih => rw [generateItemsOfConcept, ih]; simp

theorem generateItems_eq_flatMap (items : List item) (predicate : item → List Section) :
    generateItems items predicate = items.flatMap predicate := by
  unfold generateItems
  rw [foldl_append_eq_flatMap]
  rfl

theorem generateItemsOfConcept_eq_flatMap (items : List item) :
    generateItemsOfConcept items = items.flatMap generateItem := by
  rw [generateItemsOfConcept_eq, generateItems_eq_flatMap]

theorem generateItem_concept (CptStep : step) (Items : List item) :
    generateItem (.concept CptStep Items) =
      [⟨.conceptStartDiv, .step CptStep⟩,
       ⟨.conceptSpan, .nil⟩,
       ⟨.stepBodyDiv, .step CptStep⟩,
       ⟨.stepEndDiv, .step CptStep⟩,
       ⟨.conceptStepsStartDiv, .nil⟩]
      ++ Items.flatMap generateItem
      ++ [⟨.endDiv, .nil⟩] := by
  rw [generateItem, generateItemsOfConcept_eq_flatMap]
  simp [execTemplate]

theorem names_append (a b : List Section) : names (a ++ b) = names a ++ names b := by
  simp [names]

theorem length_names (out : List Section) : (names out).length = out.length := by
  simp [names]

mutual

theorem length_generateItem_le : ∀ i : item, (generateItem i).length ≤ 8 * item.nodes i
  | .step s => by
    rw [← length_names, names_generateItem_step, item.nodes]
    split_ifs <;> simp
  | .comment c => by
    simp [generateItem, execTemplate, item.nodes]
  | .concept CptStep Items => by
    have h := length_generateItemsOfConcept_le Items
    rw [generateItem, item.nodes]
    simp only [execTemplate, List.length_append, List.length_cons, List.length_nil]
    omega

theorem length_generateItemsOfConcept_le :
    ∀ l : List item, (generateItemsOfConcept l).length ≤ 8 * item.nodesOfList l
  | [] => by
    simp [generateItemsOfConcept, item.nodesOfList]
  | i :: rest => by
    have h1 := length_generateItem_le i
    have h2 := length_generateItemsOfConcept_le rest
    rw [generateItemsOfConcept, item.nodesOfList]
    simp only [List.length_append]
    omega

end

mutual

theorem congratsDiv_not_mem_generateItem :
    ∀ i : item, Template.congratsDiv ∉ names (generateItem i)
  | .step s => by
    rw [names_generateItem_step]
    split_ifs <;> simp
  | .comment c => by
    simp [generateItem, execTemplate, names]
  | .concept CptStep Items => by
    have h := congratsDiv_not_mem_generateItemsOfConcept Items
    rw [generateItem]
    simp only [execTemplate, names_append]
    simpa [names] using h

theorem congratsDiv_not_mem_generateItemsOfConcept :
    ∀ l : List item, Template.congratsDiv ∉ names (generateItemsOfConcept l)
  | [] => by
    simp [generateItemsOfConcept, names]
  | i :: rest => by
    have h1 := congratsDiv_not_mem_generateItem i
    have h2 := congratsDiv_not_mem_generateItemsOfConcept rest
    rw [generateItemsOfConcept, names_append]
    simp [h1, h2]

end

theorem seq_cons_of_exited (r : Rendered) (rest : List Rendered) (h : r.exited = true) :
    Rendered.seq (r :: rest) = r := by
  simp [Rendered.seq, Rendered.andThen, h]

/-- With the templates of this repository the overview ends the process: the page start is
written when its template executes, and `reportOverviewTag` fails. -/
theorem generateOverview_executes (missing : Engine) (o : overview) :
    generateOverview (executes missing) o =
      ⟨if missing .htmlPageStartTag (.overview o) then [⟨.htmlPageStartTag, .overview o⟩]
        else [], true⟩ := by
  unfold generateOverview
  by_cases h : missing .htmlPageStartTag (.overview o) = true
  · simp [Rendered.seq, Rendered.andThen, execTemplateOrFatal, executes, h, execTemplate]
  · simp [Rendered.seq, Rendered.andThen, execTemplateOrFatal, executes, h]

theorem generateSpecPage_executes (env : Env) (missing : Engine) (suiteRes : ProtoSuiteResult)
    (specRes : ProtoSpecResult) :
    generateSpecPage env (executes missing) suiteRes specRes =
      generateOverview (executes missing) (env.toOverview suiteRes (some specRes)) := by
  unfold generateSpecPage
  exact seq_cons_of_exited _ _ (by rw [generateOverview_executes])

/-- Without parse errors `generateSpecDiv` emits, around the scenario sections, two
container openings and three closings. -/
theorem generateSpecDiv_direct_counts (env : Env) (res : ProtoSpecResult)
    (hp : containsParseErrors (env.toSpec res).Errors = false) :
    ∃ pre post,
      generateSpecDiv env res =
        pre
        ++ (match (env.toSpec res).BeforeHookFailure with
            | none => (env.toSpec res).Scenarios.flatMap generateScenario
            | some _ => [])
        ++ post ∧
      occurrences .endDiv (pre ++ post) = 3 ∧
      occurrences .specsItemsContainerDiv (pre ++ post)
        + occurrences .specsItemsContentsDiv (pre ++ post) = 2 := by
  refine ⟨[⟨.specHeaderStartTag, .specHeader (env.toSpecHeader res)⟩,
      ⟨.tagsDiv, .specHeader (env.toSpecHeader res)⟩,
      ⟨.headerEndTag, .nil⟩,
      ⟨.specsItemsContainerDiv, .nil⟩]
      ++ (match (env.toSpec res).BeforeHookFailure with
          | some h => [⟨.hookFailureDiv, .hookFailure h⟩]
          | none => [])
      ++ [⟨.specsItemsContentsDiv, .nil⟩,
          ⟨.specCommentsAndTableTag, .spec (env.toSpec res)⟩],
    [⟨.endDiv, .nil⟩, ⟨.endDiv, .nil⟩]
      ++ (match (env.toSpec res).AfterHookFailure with
          | some h => [⟨.hookFailureDiv, .hookFailure h⟩]
          | none => [])
      ++ [⟨.endDiv, .nil⟩], ?_, ?_, ?_⟩
  · unfold generateSpecDiv
    simp only [hp, execTemplate, Bool.false_eq_true, if_false, foldl_append_eq_flatMap,
      List.nil_append]
    cases (env.toSpec res).BeforeHookFailure <;> cases (env.toSpec res).AfterHookFailure <;>
      simp
  · cases (env.toSpec res).BeforeHookFailure <;> cases (env.toSpec res).AfterHookFailure <;>
      simp [occurrences, names]
  · cases (env.toSpec res).BeforeHookFailure <;> cases (env.toSpec res).AfterHookFailure <;>
      simp [occurrences, names]

/-! ## Traces -/

theorem createdPages_append (a b : List Event) :
    createdPages (a ++ b) = createdPages a ++ createdPages b := by
  induction a with
  | nil => rfl
  | cons e a ih => cases e <;> simp [createdPages, ih]

theorem createdSearchIndexes_append (a b : List Event) :
    createdSearchIndexes (a ++ b) = createdSearchIndexes a ++ createdSearchIndexes b := by
  induction a with
  | nil => rfl
  | cons e a ih => cases e <;> simp [createdSearchIndexes, ih]

theorem specTasks_append (a b : List Event) :
    specTasks (a ++ b) = specTasks a ++ specTasks b := by
  induction a with
  | nil => rfl
  | cons e a ih => cases e <;> simp [specTasks, ih]

theorem tasksStarted_append (a b : List Event) :
    tasksStarted (a ++ b) = tasksStarted a + tasksStarted b := by
  induction a with
  | nil => simp [tasksStarted]
  | cons e a ih => cases e <;> simp [tasksStarted, ih] <;> omega

theorem waits_append (a b : List Event) : waits (a ++ b) = waits a + waits b := by
  induction a with
  | nil => simp [waits]
  | cons e a ih =>
    cases e <;> simp [waits, ih]
    omega

theorem createdPages_initial (a b : List Event) (h : a <+: b) :
    createdPages a <+: createdPages b := by
  obtain ⟨c, rfl⟩ := h
  rw [createdPages_append]
  exact List.prefix_append _ _

theorem specTasks_initial (a b : List Event) (h : a <+: b) : specTasks a <+: specTasks b := by
  obtain ⟨c, rfl⟩ := h
  rw [specTasks_append]
  exact List.prefix_append _ _

theorem createdSearchIndexes_of_initial (a b : List Event) (h : a <+: b)
    (hb : createdSearchIndexes b = []) : createdSearchIndexes a = [] := by
  obtain ⟨c, rfl⟩ := h
  rw [createdSearchIndexes_append] at hb
  exact (List.append_eq_nil.1 hb).1

theorem waits_of_initial (a b : List Event) (h : a <+: b) (hb : waits b = 0) : waits a = 0 := by
  obtain ⟨c, rfl⟩ := h
  rw [waits_append] at hb
  omega

theorem createdPages_specPageEvents (env : Env) (exec : Engine) (suiteRes : ProtoSuiteResult)
    (reportDir : String) (l : List ProtoSpecResult) :
    createdPages (l.flatMap (specPageEvents env exec suiteRes reportDir)) =
      l.map (pagePath env reportDir) := by
  induction l with
  | nil => rfl
  | cons r l ih =>
    rw [List.flatMap_cons, createdPages_append, ih]
    rfl

theorem createdSearchIndexes_specPageEvents (env : Env) (exec : Engine)
    (suiteRes : ProtoSuiteResult) (reportDir : String) (l : List ProtoSpecResult) :
    createdSearchIndexes (l.flatMap (specPageEvents env exec suiteRes reportDir)) = [] := by
  induction l with
  | nil => rfl
  | cons r l ih =>
    rw [List.flatMap_cons, createdSearchIndexes_append, ih]
    rfl

theorem specTasks_specPageEvents (env : Env) (exec : Engine) (suiteRes : ProtoSuiteResult)
    (reportDir : String) (l : List ProtoSpecResult) :
    specTasks (l.flatMap (specPageEvents env exec suiteRes reportDir)) = l := by
  induction l with
  | nil => rfl
  | cons r l ih =>
    rw [List.flatMap_cons, specTasks_append, ih]
    rfl

theorem waits_specPageEvents (env : Env) (exec : Engine) (suiteRes : ProtoSuiteResult)
    (reportDir : String) (l : List ProtoSpecResult) :
    waits (l.flatMap (specPageEvents env exec suiteRes reportDir)) = 0 := by
  induction l with
  | nil => rfl
  | cons r l ih =>
    rw [List.flatMap_cons, waits_append, ih]
    rfl

theorem length_specPageEvents (env : Env) (exec : Engine) (suiteRes : ProtoSuiteResult)
    (reportDir : String) (l : List ProtoSpecResult) :
    (l.flatMap (specPageEvents env exec suiteRes reportDir)).length = 3 * l.length := by
  induction l with
  | nil => rfl
  | cons r l ih =>
    rw [List.flatMap_cons, List.length_append, ih]
    simp [specPageEvents]
    omega

theorem specPagesLoop_prefix (env : Env) (exec : Engine) (suiteRes : ProtoSuiteResult)
    (reportDir : String) (before rest : List ProtoSpecResult)
    (h : ∀ b ∈ before, env.CreateDirectoryOk (pageDir env reportDir b) = true ∧
      env.Create (pagePath env reportDir b) = none) :
    specPagesLoop env exec suiteRes reportDir (before ++ rest) =
      ⟨before.flatMap (specPageEvents env exec suiteRes reportDir)
          ++ (specPagesLoop env exec suiteRes reportDir rest).trace,
        (specPagesLoop env exec suiteRes reportDir rest).outcome⟩ := by
  induction before with
  | nil => rfl
  | cons b before ih =>
    have hb := h b (List.mem_cons_self b before)
    have hd : env.CreateDirectoryOk
        (env.Join [reportDir,
          env.Dir (env.Rel env.ProjectRoot (ProtoSpec.GetFileName b.GetProtoSpec))]) = true :=
      hb.1
    have hc : env.Create
        (env.Join [reportDir,
          env.toHTMLFileName (ProtoSpec.GetFileName b.GetProtoSpec) env.ProjectRoot]) = none :=
      hb.2
    have ih' := ih (fun x hx => h x (List.mem_cons_of_mem b hx))
    rw [List.cons_append, specPagesLoop]
    simp only [hd, hc, Bool.not_true, Bool.false_eq_true, if_false, ih', List.flatMap_cons]
    simp [specPageEvents, pageDir, pagePath]

theorem specPagesLoop_fails (env : Env) (exec : Engine) (suiteRes : ProtoSuiteResult)
    (reportDir : String) (r : ProtoSpecResult) (rest : List ProtoSpecResult) (err : Error)
    (hd : env.CreateDirectoryOk (pageDir env reportDir r) = true)
    (hc : env.Create (pagePath env reportDir r) = some err) :
    specPagesLoop env exec suiteRes reportDir (r :: rest) =
      ⟨[.createDirectory (pageDir env reportDir r)], .error err⟩ := by
  unfold pageDir at hd
  unfold pagePath at hc
  rw [specPagesLoop]
  simp only [hd, hc, Bool.not_true, Bool.false_eq_true, if_false]
  rfl

theorem firstExitingTask_pos (l : List Event) (n : Nat) (h : firstExitingTask l = some n) :
    1 ≤ n := by
  induction l generalizing n with
  | nil => simp [firstExitingTask] at h
  | cons e l ih =>
    cases e <;> simp only [firstExitingTask, Option.map_eq_some'] at h
    all_goals first
      | (obtain ⟨m, _, rfl⟩ := h; omega)
      | (split at h
         · simp at h; omega
         · simp only [Option.map_eq_some'] at h
           obtain ⟨m, _, rfl⟩ := h
           omega)

theorem cutAtExit_trace_initial (sched : Nat) (main : Run) :
    (cutAtExit sched main).trace <+: main.trace := by
  unfold cutAtExit
  split
  · exact List.prefix_refl _
  · split
    · exact List.take_prefix _ _
    · exact List.prefix_refl _

theorem cutAtExit_outcome (sched : Nat) (main : Run) :
    cutAtExit sched main = main ∨ (cutAtExit sched main).outcome = .exit := by
  unfold cutAtExit
  split
  · exact Or.inl rfl
  · split
    · exact Or.inr rfl
    · exact Or.inl rfl

theorem cutAtExit_late (sched : Nat) (main : Run) (h : main.trace.length ≤ sched) :
    cutAtExit sched main = main := by
  unfold cutAtExit
  split
  · rfl
  · rename_i n hn
    have := firstExitingTask_pos _ _ hn
    rw [if_neg (by omega)]

/-- Without a pre-suite hook failure, when the file of a specification cannot be created,
the calling goroutine returns the error from inside the loop. -/
theorem mainGoroutine_create_fails (env : Env) (exec : Engine) (suiteRes : ProtoSuiteResult)
    (reportDir : String) (before after : List ProtoSpecResult) (r : ProtoSpecResult)
    (err : Error)
    (hpre : suiteRes.preHookFailure = none)
    (hspecs : suiteRes.specResults = before ++ r :: after)
    (hidx : env.Create (env.Join [reportDir, "index.html"]) = none)
    (hbefore : ∀ b ∈ before, env.CreateDirectoryOk (pageDir env reportDir b) = true ∧
      env.Create (pagePath env reportDir b) = none)
    (hdir : env.CreateDirectoryOk (pageDir env reportDir r) = true)
    (hfail : env.Create (pagePath env reportDir r) = some err) :
    mainGoroutine env exec suiteRes reportDir =
      ⟨[.create (env.Join [reportDir, "index.html"]),
        .goIndexPage (env.Join [reportDir, "index.html"]) (generateIndexPage env exec suiteRes)]
        ++ before.flatMap (specPageEvents env exec suiteRes reportDir)
        ++ [.createDirectory (pageDir env reportDir r)],
       .error err⟩ := by
  have hpre' : suiteRes.GetPreHookFailure = none := hpre
  have hloop : specPagesLoop env exec suiteRes reportDir suiteRes.GetSpecResults =
      ⟨before.flatMap (specPageEvents env exec suiteRes reportDir)
        ++ [.createDirectory (pageDir env reportDir r)], .error err⟩ := by
    have hs : suiteRes.GetSpecResults = before ++ r :: after := hspecs
    rw [hs, specPagesLoop_prefix env exec suiteRes reportDir before (r :: after) hbefore,
      specPagesLoop_fails env exec suiteRes reportDir r after err hdir hfail]
  unfold mainGoroutine
  simp only [hpre', hidx, hloop]
  simp

theorem buildIndex_threeSpecSuite :
    (buildIndex (sampleEnv postHookFailedSpec) threeSpecSuite).Tags "fast" =
      ["a.spec.html", "c.spec.html"] ∧
    (buildIndex (sampleEnv postHookFailedSpec) threeSpecSuite).Tags "smoke" =
      ["a.spec.html"] ∧
    (buildIndex (sampleEnv postHookFailedSpec) threeSpecSuite).Tags "slow" = [] ∧
    (buildIndex (sampleEnv postHookFailedSpec) threeSpecSuite).Specs "Spec B" =
      ["b.spec.html"] :=
  ⟨rfl, rfl, rfl, rfl⟩

theorem render_scenarioContainerStartDiv_samples :
    render (scenarioContainerStartDiv sampleScenario) =
      "<div class='scenario-container passed'>\n" ∧
    render (scenarioContainerStartDiv
      { sampleScenario with ExecStatus := fail, TableRowIndex := 2 }) =
      "<div class='scenario-container failed hidden'  data-tablerow=2>\n" ∧
    render (scenarioContainerStartDiv
      { sampleScenario with ExecStatus := notExecuted, TableRowIndex := 0 }) =
      "<div class='scenario-container skipped'  data-tablerow=0>" := by
  refine ⟨?_, ?_, ?_⟩ <;> decide

theorem names_generateScenario_sample :
    names (generateScenario sampleScenario) =
      [.scenarioContainerStartDiv, .scenarioHeaderStartDiv, .tagsDiv, .endDiv, .commentSpan,
       .endDiv] := by
  decide

theorem names_generateItem_nestedItem :
    names (generateItem nestedItem) =
      [.conceptStartDiv, .conceptSpan, .stepBodyDiv, .stepEndDiv, .conceptStepsStartDiv,
       .commentSpan,
       .stepStartDiv, .stepBodyDiv, .stepFailureDiv, .messageDiv, .stepEndDiv,
       .conceptStartDiv, .conceptSpan, .stepBodyDiv, .stepEndDiv, .conceptStepsStartDiv,
       .commentSpan, .endDiv,
       .endDiv] ∧
    nestedItem.nodes = 5 := by
  constructor <;> decide

theorem names_generateScenario_fullScenario :
    names (generateScenario fullScenario) =
      [.scenarioContainerStartDiv, .scenarioHeaderStartDiv, .tagsDiv, .endDiv,
       .hookFailureDiv,
       .contextOrTeardownStartDiv, .stepStartDiv, .stepBodyDiv, .messageDiv, .stepEndDiv,
       .skippedReasonDiv, .endDiv,
       .commentSpan]
      ++ names (generateItem nestedItem)
      ++ [.contextOrTeardownStartDiv, .commentSpan, .endDiv,
          .hookFailureDiv,
          .endDiv] := by
  decide

/-! # Properties

## Search index -/

/-- C1: the index built by `generateSearchIndex` holds no location twice under one key:
every list `index.Tags[tag]` and every list `index.Specs[heading]` is free of repetitions,
for every suite result. -/
theorem searchIndex_no_duplicates (env : Env) (suiteRes : ProtoSuiteResult) :
    (∀ tag, ((buildIndex env suiteRes).Tags tag).Nodup) ∧
      ∀ heading, ((buildIndex env suiteRes).Specs heading).Nodup :=
  foldl_addSpecResult_nodup env suiteRes.GetSpecResults newSearchIndex
    (fun _ => List.nodup_nil) (fun _ => List.nodup_nil)

/-- C2: a location `L` is listed under tag `T` exactly when some specification result with
output location `L` carries `T` among its own tags, among the tags of one of its scenario
items, or among the tags of the scenario of one of its table-driven scenario items; and `L`
is listed under heading `H` exactly when some specification result has heading `H` and
output location `L`. -/
theorem searchIndex_membership (env : Env) (suiteRes : ProtoSuiteResult) (L : String) :
    (∀ T, L ∈ (buildIndex env suiteRes).Tags T ↔
      ∃ r ∈ suiteRes.specResults,
        env.toHTMLFileName (ProtoSpec.GetFileName r.protoSpec) env.ProjectRoot = L ∧
        (T ∈ ProtoSpec.GetTags r.protoSpec ∨
         (∃ i ∈ ProtoSpec.GetItems r.protoSpec, ∃ s, i.scenario = some s ∧ T ∈ s.tags) ∨
         (∃ i ∈ ProtoSpec.GetItems r.protoSpec, ∃ tds s,
            i.tableDrivenScenario = some tds ∧ tds.scenario = some s ∧ T ∈ s.tags))) ∧
    (∀ H, L ∈ (buildIndex env suiteRes).Specs H ↔
      ∃ r ∈ suiteRes.specResults,
        ProtoSpec.GetSpecHeading r.protoSpec = H ∧
        env.toHTMLFileName (ProtoSpec.GetFileName r.protoSpec) env.ProjectRoot = L) := by
  constructor
  · intro T
    unfold buildIndex
    rw [mem_foldl_addSpecResult_Tags]
    simp only [newSearchIndex, List.not_mem_nil, false_or, ProtoSuiteResult.GetSpecResults]
    constructor
    · rintro ⟨r, hr, hT, hL⟩
      refine ⟨r, hr, hL.symm, ?_⟩
      rcases (mem_contributedTags r T).1 hT with h | ⟨i, hi, hk⟩
      · exact Or.inl h
      · rcases (mem_itemTags i T).1 hk with h | h
        · exact Or.inr (Or.inl ⟨i, hi, h⟩)
        · exact Or.inr (Or.inr ⟨i, hi, h⟩)
    · rintro ⟨r, hr, hL, hT⟩
      refine ⟨r, hr, (mem_contributedTags r T).2 ?_, hL.symm⟩
      rcases hT with h | ⟨i, hi, h⟩ | ⟨i, hi, h⟩
      · exact Or.inl h
      · exact Or.inr ⟨i, hi, (mem_itemTags i T).2 (Or.inl h)⟩
      · exact Or.inr ⟨i, hi, (mem_itemTags i T).2 (Or.inr h)⟩
  · intro H
    unfold buildIndex
    rw [mem_foldl_addSpecResult_Specs]
    simp only [newSearchIndex, List.not_mem_nil, false_or, ProtoSuiteResult.GetSpecResults]
    constructor
    · rintro ⟨r, hr, hH, hL⟩
      exact ⟨r, hr, hH.symm, hL.symm⟩
    · rintro ⟨r, hr, hH, hL⟩
      exact ⟨r, hr, hH.symm, hL.symm⟩

/-! ## Specification body with parse errors -/

/-- C4: when the build-error list of a specification holds a parse-kind error at any
position, `generateSpecDiv` emits the spec header (header start, tags, header end, items
container) followed by the error section and the closing of the container only; no
comments/table section, no hook-failure block and no scenario container is emitted, whatever
scenarios the render model holds. -/
theorem generateSpecDiv_parse_errors (env : Env) (res : ProtoSpecResult)
    (h : ∃ e ∈ (env.toSpec res).Errors, e.isParseError = true) :
    generateSpecDiv env res =
      [⟨.specHeaderStartTag, .specHeader (env.toSpecHeader res)⟩,
       ⟨.tagsDiv, .specHeader (env.toSpecHeader res)⟩,
       ⟨.headerEndTag, .nil⟩,
       ⟨.specsItemsContainerDiv, .nil⟩,
       ⟨.specErrorDiv, .spec (env.toSpec res)⟩,
       ⟨.endDiv, .nil⟩] ∧
    Template.specCommentsAndTableTag ∉ names (generateSpecDiv env res) ∧
    Template.specsItemsContentsDiv ∉ names (generateSpecDiv env res) ∧
    Template.hookFailureDiv ∉ names (generateSpecDiv env res) ∧
    Template.scenarioContainerStartDiv ∉ names (generateSpecDiv env res) := by
  have hp := (containsParseErrors_iff _).2 h
  have e : generateSpecDiv env res =
      [⟨.specHeaderStartTag, .specHeader (env.toSpecHeader res)⟩,
       ⟨.tagsDiv, .specHeader (env.toSpecHeader res)⟩,
       ⟨.headerEndTag, .nil⟩,
       ⟨.specsItemsContainerDiv, .nil⟩,
       ⟨.specErrorDiv, .spec (env.toSpec res)⟩,
       ⟨.endDiv, .nil⟩] := by
    unfold generateSpecDiv
    simp only [hp, if_true]
    rfl
  refine ⟨e, ?_, ?_, ?_, ?_⟩ <;> rw [e] <;> simp [names]

/-- Witness for `generateSpecDiv_parse_errors`: a validation error followed by a parse
error, in a specification that has a scenario and hook failures. -/
theorem generateSpecDiv_parse_errors_witness :
    (∃ e ∈ ((sampleEnv brokenSpec).toSpec specA).Errors, e.isParseError = true) ∧
    names (generateSpecDiv (sampleEnv brokenSpec) specA) =
      [.specHeaderStartTag, .tagsDiv, .headerEndTag, .specsItemsContainerDiv, .specErrorDiv,
       .endDiv] :=
  ⟨⟨⟨parseError, "a.spec", 9, "bad"⟩, by simp [sampleEnv, brokenSpec], by decide⟩,
   by
    rw [(generateSpecDiv_parse_errors (sampleEnv brokenSpec) specA
      ⟨⟨parseError, "a.spec", 9, "bad"⟩, by simp [sampleEnv, brokenSpec], by decide⟩).1]
    rfl⟩

/-! ## Steps -/

/-- C9: for a Step item, `generateItem` emits the step failure block exactly when the status
is fail and both the error message and the stack trace are non-empty, and the skip-reason
block exactly when the status is skip and the skip reason is non-empty; the failure block
precedes the messages and the closing markup, and the skip-reason block directly follows
the closing markup and is the last section of the step. -/
theorem generateItem_step_blocks (s : step) :
    (Template.stepFailureDiv ∈ names (generateItem (.step s)) ↔
      s.Res.Status = fail ∧ s.Res.ErrorMessage ≠ "" ∧ s.Res.StackTrace ≠ "") ∧
    (Template.skippedReasonDiv ∈ names (generateItem (.step s)) ↔
      s.Res.Status = skip ∧ s.Res.SkippedReason ≠ "") ∧
    (s.Res.Status = fail ∧ s.Res.ErrorMessage ≠ "" ∧ s.Res.StackTrace ≠ "" →
      ∃ a b, names (generateItem (.step s)) = a ++ [.stepFailureDiv] ++ b ∧
        Template.stepFailureDiv ∉ a ∧ Template.messageDiv ∉ a ∧ Template.stepEndDiv ∉ a ∧
        Template.stepFailureDiv ∉ b ∧ Template.messageDiv ∈ b ∧ Template.stepEndDiv ∈ b) ∧
    (s.Res.Status = skip ∧ s.Res.SkippedReason ≠ "" →
      ∃ a, names (generateItem (.step s)) = a ++ [.stepEndDiv, .skippedReasonDiv] ∧
        Template.stepEndDiv ∉ a ∧ Template.skippedReasonDiv ∉ a) ∧
    (¬ (s.Res.Status = skip ∧ s.Res.SkippedReason ≠ "") →
      ∃ a, names (generateItem (.step s)) = a ++ [.stepEndDiv] ∧ Template.stepEndDiv ∉ a) := by
  have e := names_generateItem_step s
  refine ⟨?_, ?_, ?_, ?_, ?_⟩
  · have h : Template.stepFailureDiv ∈ names (generateItem (.step s)) ↔ wantsFailure s := by
      rw [e]
      by_cases hF : wantsFailure s <;> by_cases hS : wantsSkipReason s <;>
        cases s.PreHookFailure <;> cases s.PostHookFailure <;> simp [hF, hS]
    exact h
  · have h : Template.skippedReasonDiv ∈ names (generateItem (.step s)) ↔
        wantsSkipReason s := by
      rw [e]
      by_cases hF : wantsFailure s <;> by_cases hS : wantsSkipReason s <;>
        cases s.PreHookFailure <;> cases s.PostHookFailure <;> simp [hF, hS]
    exact h
  · intro hF
    have hF' : wantsFailure s := hF
    refine ⟨[.stepStartDiv, .stepBodyDiv]
        ++ (if s.PreHookFailure.isSome then [.hookFailureDiv] else []),
      (if s.PostHookFailure.isSome then [.hookFailureDiv] else [])
        ++ [.messageDiv, .stepEndDiv]
        ++ (if wantsSkipReason s then [.skippedReasonDiv] else []), ?_, ?_⟩
    · rw [e, if_pos hF']
    · split_ifs <;> simp
  · intro hS
    have hS' : wantsSkipReason s := hS
    refine ⟨[.stepStartDiv, .stepBodyDiv]
        ++ (if s.PreHookFailure.isSome then [.hookFailureDiv] else [])
        ++ (if wantsFailure s then [.stepFailureDiv] else [])
        ++ (if s.PostHookFailure.isSome then [.hookFailureDiv] else [])
        ++ [.messageDiv], ?_, ?_⟩
    · rw [e, if_pos hS']
      simp
    · split_ifs <;> simp
  · intro hS
    have hS' : ¬ wantsSkipReason s := hS
    refine ⟨[.stepStartDiv, .stepBodyDiv]
        ++ (if s.PreHookFailure.isSome then [.hookFailureDiv] else [])
        ++ (if wantsFailure s then [.stepFailureDiv] else [])
        ++ (if s.PostHookFailure.isSome then [.hookFailureDiv] else [])
        ++ [.messageDiv], ?_, ?_⟩
    · rw [e, if_neg hS']
      simp
    · split_ifs <;> simp

/-- Witness for `generateItem_step_blocks`: a failed step with message and stack trace. -/
theorem generateItem_step_blocks_witness :
    (failedStep.Res.Status = fail ∧ failedStep.Res.ErrorMessage ≠ "" ∧
      failedStep.Res.StackTrace ≠ "") ∧
    (∃ a b, names (generateItem (.step failedStep)) = a ++ [.stepFailureDiv] ++ b ∧
      Template.stepFailureDiv ∉ a ∧ Template.messageDiv ∉ a ∧ Template.stepEndDiv ∉ a ∧
      Template.stepFailureDiv ∉ b ∧ Template.messageDiv ∈ b ∧ Template.stepEndDiv ∈ b) ∧
    (skippedStep.Res.Status = skip ∧ skippedStep.Res.SkippedReason ≠ "") ∧
    (∃ a, names (generateItem (.step skippedStep)) = a ++ [.stepEndDiv, .skippedReasonDiv] ∧
      Template.stepEndDiv ∉ a ∧ Template.skippedReasonDiv ∉ a) :=
  ⟨by decide, (generateItem_step_blocks failedStep).2.2.1 (by decide),
   by decide, (generateItem_step_blocks skippedStep).2.2.2.1 (by decide)⟩

/-! ## Scenario container -/

/-- C10: the scenario container markup carries the piece `hidden` exactly when
`TableRowIndex > 0` (so row 0 and index -1 are visible); it carries a `data-tablerow`
attribute exactly when `TableRowIndex` is not -1, and the value printed is the row index; its
status class is `passed` for pass, `failed` for fail and `skipped` otherwise; and
`generateScenario` emits this container first, with the scenario as its data. -/
theorem scenarioContainerStartDiv_markup (scn : scenario) :
    (Piece.text " hidden" ∈ scenarioContainerStartDiv scn ↔ scn.TableRowIndex > 0) ∧
    (∀ i, Piece.int i ∈ scenarioContainerStartDiv scn ↔
      i = scn.TableRowIndex ∧ scn.TableRowIndex ≠ -1) ∧
    scenarioContainerStartDiv scn =
      [.text ("<div class='scenario-container "
          ++ (if scn.ExecStatus = pass then "passed"
              else if scn.ExecStatus = fail then "failed" else "skipped"))]
      ++ (if scn.TableRowIndex > 0 then [.text " hidden"] else [])
      ++ [.text "'"]
      ++ (if scn.TableRowIndex ≠ -1 then
            [.text ((if scn.ExecStatus = pass then " " else "  ") ++ "data-tablerow="),
             .int scn.TableRowIndex]
          else [])
      ++ [.text (if scn.ExecStatus = pass ∨ scn.ExecStatus = fail then ">\n" else ">")] ∧
    (generateScenario scn).head? = some ⟨.scenarioContainerStartDiv, .scenario scn⟩ := by
  refine ⟨?_, ?_, ?_, ?_⟩
  · unfold scenarioContainerStartDiv
    split_ifs <;> simp_all
  · intro i
    unfold scenarioContainerStartDiv
    split_ifs <;> simp_all
  · unfold scenarioContainerStartDiv pass fail
    by_cases h0 : scn.ExecStatus = 0
    · simp only [h0, if_true, true_or]
      rfl
    · by_cases h1 : scn.ExecStatus = 1
      · simp only [h1, if_true, or_true]
        rfl
      · simp only [h0, h1, if_false, or_self]
        rfl
  · simp [generateScenario, execTemplate]

/-! ## Specification body with hook failures -/

/-- C7, counterexample: for a specification without parse errors whose pre-hook failed,
`generateSpecDiv` emits, besides the failure block, the contents container with the
comments/table section; the failure block is not the only thing in the body. -/
theorem generateSpecDiv_preHook_renders_comments :
    containsParseErrors ((sampleEnv preHookFailedSpec).toSpec specA).Errors = false ∧
    ((sampleEnv preHookFailedSpec).toSpec specA).BeforeHookFailure.isSome = true ∧
    names (generateSpecDiv (sampleEnv preHookFailedSpec) specA) =
      [.specHeaderStartTag, .tagsDiv, .headerEndTag, .specsItemsContainerDiv,
       .hookFailureDiv, .specsItemsContentsDiv, .specCommentsAndTableTag,
       .endDiv, .endDiv, .endDiv] ∧
    Template.specCommentsAndTableTag ∈
      names (generateSpecDiv (sampleEnv preHookFailedSpec) specA) := by
  refine ⟨by rfl, by rfl, by rfl, ?_⟩
  decide

/-- C7, amended: for a specification without parse errors, a spec-level pre-hook failure
suppresses every scenario: after the header the body is the failure block, then the contents
container holding only the comments/table section, then the post-hook failure block when
there is one.  A spec-level post-hook failure block is emitted after all scenario sections
(none when the pre-hook failed), behind the two closings of the contents container. -/
theorem generateSpecDiv_hook_failures (env : Env) (res : ProtoSpecResult)
    (hp : ∀ e ∈ (env.toSpec res).Errors, e.isParseError = false) :
    (∀ h, (env.toSpec res).BeforeHookFailure = some h →
      Template.scenarioContainerStartDiv ∉ names (generateSpecDiv env res) ∧
      generateSpecDiv env res =
        [⟨.specHeaderStartTag, .specHeader (env.toSpecHeader res)⟩,
         ⟨.tagsDiv, .specHeader (env.toSpecHeader res)⟩,
         ⟨.headerEndTag, .nil⟩,
         ⟨.specsItemsContainerDiv, .nil⟩,
         ⟨.hookFailureDiv, .hookFailure h⟩,
         ⟨.specsItemsContentsDiv, .nil⟩,
         ⟨.specCommentsAndTableTag, .spec (env.toSpec res)⟩,
         ⟨.endDiv, .nil⟩,
         ⟨.endDiv, .nil⟩]
        ++ (match (env.toSpec res).AfterHookFailure with
            | some a => [⟨.hookFailureDiv, .hookFailure a⟩]
            | none => [])
        ++ [⟨.endDiv, .nil⟩]) ∧
    (∀ a, (env.toSpec res).AfterHookFailure = some a →
      generateSpecDiv env res =
        [⟨.specHeaderStartTag, .specHeader (env.toSpecHeader res)⟩,
         ⟨.tagsDiv, .specHeader (env.toSpecHeader res)⟩,
         ⟨.headerEndTag, .nil⟩,
         ⟨.specsItemsContainerDiv, .nil⟩]
        ++ (match (env.toSpec res).BeforeHookFailure with
            | some h => [⟨.hookFailureDiv, .hookFailure h⟩]
            | none => [])
        ++ [⟨.specsItemsContentsDiv, .nil⟩,
            ⟨.specCommentsAndTableTag, .spec (env.toSpec res)⟩]
        ++ (match (env.toSpec res).BeforeHookFailure with
            | some _ => []
            | none => (env.toSpec res).Scenarios.flatMap generateScenario)
        ++ [⟨.endDiv, .nil⟩, ⟨.endDiv, .nil⟩, ⟨.hookFailureDiv, .hookFailure a⟩,
            ⟨.endDiv, .nil⟩]) := by
  have hc : containsParseErrors (env.toSpec res).Errors = false := by
    cases hb : containsParseErrors (env.toSpec res).Errors with
    | false => rfl
    | true =>
      obtain ⟨e, he, hpe⟩ := (containsParseErrors_iff _).1 hb
      rw [hp e he] at hpe
      exact absurd hpe (by decide)
  refine ⟨?_, ?_⟩
  · intro h hh
    have e : generateSpecDiv env res =
        [⟨.specHeaderStartTag, .specHeader (env.toSpecHeader res)⟩,
         ⟨.tagsDiv, .specHeader (env.toSpecHeader res)⟩,
         ⟨.headerEndTag, .nil⟩,
         ⟨.specsItemsContainerDiv, .nil⟩,
         ⟨.hookFailureDiv, .hookFailure h⟩,
         ⟨.specsItemsContentsDiv, .nil⟩,
         ⟨.specCommentsAndTableTag, .spec (env.toSpec res)⟩,
         ⟨.endDiv, .nil⟩,
         ⟨.endDiv, .nil⟩]
        ++ (match (env.toSpec res).AfterHookFailure with
            | some a => [⟨.hookFailureDiv, .hookFailure a⟩]
            | none => [])
        ++ [⟨.endDiv, .nil⟩] := by
      unfold generateSpecDiv
      simp only [hc, hh, execTemplate, Bool.false_eq_true, if_false]
      cases (env.toSpec res).AfterHookFailure <;> simp
    refine ⟨?_, e⟩
    rw [e]
    cases (env.toSpec res).AfterHookFailure <;> simp [names]
  · intro a ha
    unfold generateSpecDiv
    simp only [hc, ha, execTemplate, Bool.false_eq_true, if_false, foldl_append_eq_flatMap]
    cases (env.toSpec res).BeforeHookFailure <;> simp

/-- Witness for `generateSpecDiv_hook_failures`: a specification whose pre-hook failed and a
specification whose post-hook failed, neither with errors. -/
theorem generateSpecDiv_hook_failures_witness :
    (∀ e ∈ ((sampleEnv preHookFailedSpec).toSpec specA).Errors, e.isParseError = false) ∧
    ((sampleEnv preHookFailedSpec).toSpec specA).BeforeHookFailure = some sampleHook ∧
    Template.scenarioContainerStartDiv ∉
      names (generateSpecDiv (sampleEnv preHookFailedSpec) specA) ∧
    (∀ e ∈ ((sampleEnv postHookFailedSpec).toSpec specA).Errors, e.isParseError = false) ∧
    ((sampleEnv postHookFailedSpec).toSpec specA).AfterHookFailure = some sampleHook ∧
    names (generateSpecDiv (sampleEnv postHookFailedSpec) specA) =
      [.specHeaderStartTag, .tagsDiv, .headerEndTag, .specsItemsContainerDiv,
       .specsItemsContentsDiv, .specCommentsAndTableTag]
      ++ names (generateScenario sampleScenario)
      ++ [.endDiv, .endDiv, .hookFailureDiv, .endDiv] :=
  ⟨by simp [sampleEnv, preHookFailedSpec], rfl,
   ((generateSpecDiv_hook_failures (sampleEnv preHookFailedSpec) specA
      (by simp [sampleEnv, preHookFailedSpec])).1 sampleHook rfl).1,
   by simp [sampleEnv, postHookFailedSpec], rfl,
   by
    rw [(generateSpecDiv_hook_failures (sampleEnv postHookFailedSpec) specA
      (by simp [sampleEnv, postHookFailedSpec])).2 sampleHook rfl]
    rfl⟩

/-! ## Scenarios -/

/-- C11: `generateScenario` emits, in this order, the container, the header with tags (header
start, tags, header close), the pre-hook failure block exactly when one is present, every
context item in input order, every body item in input order, every teardown item in input
order, the post-hook failure block exactly when one is present, and the container close.
Each context and teardown item is wrapped in a context-step container; body items are
rendered bare. -/
theorem generateScenario_sections (scn : scenario) :
    generateScenario scn =
      [⟨.scenarioContainerStartDiv, .scenario scn⟩,
       ⟨.scenarioHeaderStartDiv, .scenario scn⟩,
       ⟨.tagsDiv, .scenario scn⟩,
       ⟨.endDiv, .nil⟩]
      ++ (match scn.BeforeHookFailure with
          | some h => [⟨.hookFailureDiv, .hookFailure h⟩]
          | none => [])
      ++ scn.Contexts.flatMap
          (fun i => [⟨.contextOrTeardownStartDiv, .nil⟩] ++ generateItem i ++ [⟨.endDiv, .nil⟩])
      ++ scn.Items.flatMap generateItem
      ++ scn.Teardown.flatMap
          (fun i => [⟨.contextOrTeardownStartDiv, .nil⟩] ++ generateItem i ++ [⟨.endDiv, .nil⟩])
      ++ (match scn.AfterHookFailure with
          | some h => [⟨.hookFailureDiv, .hookFailure h⟩]
          | none => [])
      ++ [⟨.endDiv, .nil⟩] := by
  have hw : generateContextOrTeardown =
      fun i => [⟨.contextOrTeardownStartDiv, .nil⟩] ++ generateItem i ++ [⟨.endDiv, .nil⟩] := by
    funext i
    rfl
  unfold generateScenario
  simp only [generateItems_eq_flatMap, execTemplate, hw]
  cases scn.BeforeHookFailure <;> cases scn.AfterHookFailure <;>
    simp only [List.append_assoc, List.cons_append, List.nil_append]

/-! ## Item trees -/

/-- C13: `generateItem` is a total function on item trees, and it emits at most eight
sections per item of the tree.  On a concept it emits the header of the defining step
(concept start, the concept icon, step body, step end and the opening of the steps
container), then the renderings by `generateItem` of all child items in input order, then
one closing section; on a comment it emits exactly one comment section. -/
theorem generateItem_item_tree :
    (∀ (CptStep : step) (Items : List item),
      generateItem (.concept CptStep Items) =
        [⟨.conceptStartDiv, .step CptStep⟩,
         ⟨.conceptSpan, .nil⟩,
         ⟨.stepBodyDiv, .step CptStep⟩,
         ⟨.stepEndDiv, .step CptStep⟩,
         ⟨.conceptStepsStartDiv, .nil⟩]
        ++ Items.flatMap generateItem
        ++ [⟨.endDiv, .nil⟩] ∧
      generateItems Items generateItem = Items.flatMap generateItem) ∧
    (∀ c : comment, generateItem (.comment c) = [⟨.commentSpan, .comment c⟩]) ∧
    (∀ i : item, (generateItem i).length ≤ 8 * i.nodes) := by
  refine ⟨fun CptStep Items => ⟨?_, generateItems_eq_flatMap Items generateItem⟩, ?_, ?_⟩
  · exact generateItem_concept CptStep Items
  · intro c
    rw [generateItem]
    rfl
  · exact length_generateItem_le

/-! ## Closing sections of a specification body -/

/-- C14: evaluated on a specification without errors, hook failures or scenarios,
`generateSpecDiv` emits the two container openings `specsItemsContainerDiv` and
`specsItemsContentsDiv` and three `endDiv` sections, one closing more than it opens; on a
specification with a parse error it emits one opening and one `endDiv`.  The two paths do
not leave the same nesting depth. -/
theorem generateSpecDiv_closes_one_more :
    names (generateSpecDiv (sampleEnv plainSpec) specB) =
      [.specHeaderStartTag, .tagsDiv, .headerEndTag, .specsItemsContainerDiv,
       .specsItemsContentsDiv, .specCommentsAndTableTag, .endDiv, .endDiv, .endDiv] ∧
    occurrences .endDiv (generateSpecDiv (sampleEnv plainSpec) specB) = 3 ∧
    occurrences .specsItemsContainerDiv (generateSpecDiv (sampleEnv plainSpec) specB)
      + occurrences .specsItemsContentsDiv (generateSpecDiv (sampleEnv plainSpec) specB) = 2 ∧
    names (generateSpecDiv (sampleEnv brokenSpec) specB) =
      [.specHeaderStartTag, .tagsDiv, .headerEndTag, .specsItemsContainerDiv, .specErrorDiv,
       .endDiv] ∧
    occurrences .endDiv (generateSpecDiv (sampleEnv brokenSpec) specB) = 1 ∧
    occurrences .specsItemsContainerDiv (generateSpecDiv (sampleEnv brokenSpec) specB)
      + occurrences .specsItemsContentsDiv (generateSpecDiv (sampleEnv brokenSpec) specB) = 1 := by
  refine ⟨by rfl, ?_, ?_, by rfl, ?_, ?_⟩ <;> decide

/-! ## Report orchestration -/

/-- C5, counterexample: in a suite of three specifications, when the page of the second one
cannot be created, the page of the third specification, which could have been created, is
neither created nor rendered: neither when the calling goroutine returns the error before
the task of the index page ends the process, nor when the process ends first. -/
theorem GenerateReports_failure_stops_later_pages :
    threeSpecSuite.GetPreHookFailure.isNone = true ∧
    denyingEnv.Create (pagePath denyingEnv "out" specB) = some "permission denied" ∧
    denyingEnv.Create (pagePath denyingEnv "out" specC) = none ∧
    (GenerateReports denyingEnv (executes allExecute) 100 threeSpecSuite "out").outcome =
      .error "permission denied" ∧
    createdPages (GenerateReports denyingEnv (executes allExecute) 100 threeSpecSuite "out").trace =
      ["out/index.html", "out/a.spec.html"] ∧
    specTasks (GenerateReports denyingEnv (executes allExecute) 100 threeSpecSuite "out").trace =
      [specA] ∧
    pagePath denyingEnv "out" specC ∉
      createdPages (GenerateReports denyingEnv (executes allExecute) 100 threeSpecSuite "out").trace ∧
    (GenerateReports denyingEnv (executes allExecute) 0 threeSpecSuite "out").outcome = .exit ∧
    createdPages (GenerateReports denyingEnv (executes allExecute) 0 threeSpecSuite "out").trace =
      ["out/index.html"] := by
  refine ⟨rfl, rfl, rfl, rfl, rfl, rfl, ?_, rfl, rfl⟩
  have e : createdPages
      (GenerateReports denyingEnv (executes allExecute) 100 threeSpecSuite "out").trace =
      ["out/index.html", "out/a.spec.html"] := rfl
  have p : pagePath denyingEnv "out" specC = "out/c.spec.html" := rfl
  rw [e, p]
  decide

/-- C5, amended: on a suite without pre-suite hook failure, when the creation of the output
file of a specification fails (the index page and the pages of the specifications before it
having been created), no page of a later specification is created or rendered, the tasks
are not joined and the search index is not written, under every engine and schedule.
`GenerateReports` returns that error at once, without cancelling the tasks already started
for the index page and the earlier specifications, unless a task has ended the process
before; it does return the error when the calling goroutine gets all its steps first. -/
theorem GenerateReports_spec_create_fails (env : Env) (exec : Engine) (sched : Nat)
    (suiteRes : ProtoSuiteResult) (reportDir : String)
    (before after : List ProtoSpecResult) (r : ProtoSpecResult) (err : Error)
    (hpre : suiteRes.preHookFailure = none)
    (hspecs : suiteRes.specResults = before ++ r :: after)
    (hidx : env.Create (env.Join [reportDir, "index.html"]) = none)
    (hbefore : ∀ b ∈ before, env.CreateDirectoryOk (pageDir env reportDir b) = true ∧
      env.Create (pagePath env reportDir b) = none)
    (hdir : env.CreateDirectoryOk (pageDir env reportDir r) = true)
    (hfail : env.Create (pagePath env reportDir r) = some err) :
    (GenerateReports env exec sched suiteRes reportDir).trace <+:
      ([.create (env.Join [reportDir, "index.html"]),
         .goIndexPage (env.Join [reportDir, "index.html"])
           (generateIndexPage env exec suiteRes)] : List Event)
        ++ before.flatMap (specPageEvents env exec suiteRes reportDir)
        ++ [.createDirectory (pageDir env reportDir r)] ∧
    (GenerateReports env exec sched suiteRes reportDir =
        ⟨([.create (env.Join [reportDir, "index.html"]),
           .goIndexPage (env.Join [reportDir, "index.html"])
             (generateIndexPage env exec suiteRes)] : List Event)
          ++ before.flatMap (specPageEvents env exec suiteRes reportDir)
          ++ [.createDirectory (pageDir env reportDir r)],
         .error err⟩ ∨
      (GenerateReports env exec sched suiteRes reportDir).outcome = .exit) ∧
    (2 + 3 * before.length + 1 ≤ sched →
      (GenerateReports env exec sched suiteRes reportDir).outcome = .error err) ∧
    createdPages (GenerateReports env exec sched suiteRes reportDir).trace <+:
      env.Join [reportDir, "index.html"] :: before.map (pagePath env reportDir) ∧
    specTasks (GenerateReports env exec sched suiteRes reportDir).trace <+: before ∧
    createdSearchIndexes (GenerateReports env exec sched suiteRes reportDir).trace = [] ∧
    waits (GenerateReports env exec sched suiteRes reportDir).trace = 0 := by
  have hm := mainGoroutine_create_fails env exec suiteRes reportDir before after r err
    hpre hspecs hidx hbefore hdir hfail
  have hG : GenerateReports env exec sched suiteRes reportDir =
      cutAtExit sched
        ⟨([.create (env.Join [reportDir, "index.html"]),
            .goIndexPage (env.Join [reportDir, "index.html"])
              (generateIndexPage env exec suiteRes)] : List Event)
          ++ before.flatMap (specPageEvents env exec suiteRes reportDir)
          ++ [.createDirectory (pageDir env reportDir r)],
         .error err⟩ := by
    unfold GenerateReports
    rw [hm]
  have hp := cutAtExit_trace_initial sched
    ⟨([.create (env.Join [reportDir, "index.html"]),
        .goIndexPage (env.Join [reportDir, "index.html"])
          (generateIndexPage env exec suiteRes)] : List Event)
      ++ before.flatMap (specPageEvents env exec suiteRes reportDir)
      ++ [.createDirectory (pageDir env reportDir r)],
     .error err⟩
  have ho := cutAtExit_outcome sched
    ⟨([.create (env.Join [reportDir, "index.html"]),
        .goIndexPage (env.Join [reportDir, "index.html"])
          (generateIndexPage env exec suiteRes)] : List Event)
      ++ before.flatMap (specPageEvents env exec suiteRes reportDir)
      ++ [.createDirectory (pageDir env reportDir r)],
     .error err⟩
  rw [← hG] at hp ho
  have hlen : (([.create (env.Join [reportDir, "index.html"]),
        .goIndexPage (env.Join [reportDir, "index.html"])
          (generateIndexPage env exec suiteRes)] : List Event)
      ++ before.flatMap (specPageEvents env exec suiteRes reportDir)
      ++ [Event.createDirectory (pageDir env reportDir r)]).length =
      2 + 3 * before.length + 1 := by
    simp only [List.length_append, List.length_cons, List.length_nil, length_specPageEvents]
  refine ⟨hp, ?_, ?_, ?_, ?_, ?_, ?_⟩
  · exact ho
  · intro hs
    rw [hG, cutAtExit_late sched _ (by rw [hlen]; exact hs)]
  · refine List.IsPrefix.trans (createdPages_initial _ _ hp) ?_
    rw [createdPages_append, createdPages_append, createdPages_specPageEvents]
    simp [createdPages]
  · refine List.IsPrefix.trans (specTasks_initial _ _ hp) ?_
    rw [specTasks_append, specTasks_append, specTasks_specPageEvents]
    simp [specTasks]
  · refine createdSearchIndexes_of_initial _ _ hp ?_
    rw [createdSearchIndexes_append, createdSearchIndexes_append,
      createdSearchIndexes_specPageEvents]
    rfl
  · refine waits_of_initial _ _ hp ?_
    rw [waits_append, waits_append, waits_specPageEvents]
    rfl

/-- Witness for `GenerateReports_spec_create_fails`: the page of the second of three
specifications cannot be created, and the calling goroutine gets all its steps before the
task of the index page ends the process. -/
theorem GenerateReports_spec_create_fails_witness :
    threeSpecSuite.preHookFailure = none ∧
    threeSpecSuite.specResults = [specA] ++ specB :: [specC] ∧
    denyingEnv.Create (denyingEnv.Join ["out", "index.html"]) = none ∧
    (∀ b ∈ [specA], denyingEnv.CreateDirectoryOk (pageDir denyingEnv "out" b) = true ∧
      denyingEnv.Create (pagePath denyingEnv "out" b) = none) ∧
    denyingEnv.CreateDirectoryOk (pageDir denyingEnv "out" specB) = true ∧
    denyingEnv.Create (pagePath denyingEnv "out" specB) = some "permission denied" ∧
    (GenerateReports denyingEnv (executes allExecute) 6 threeSpecSuite "out").outcome =
      .error "permission denied" ∧
    specTasks (GenerateReports denyingEnv (executes allExecute) 6 threeSpecSuite "out").trace
      <+: [specA] :=
  have hb : ∀ b ∈ [specA], denyingEnv.CreateDirectoryOk (pageDir denyingEnv "out" b) = true ∧
      denyingEnv.Create (pagePath denyingEnv "out" b) = none := by
    intro b hb
    rw [List.mem_singleton.1 hb]
    exact ⟨rfl, rfl⟩
  ⟨rfl, rfl, rfl, hb, rfl, rfl,
   (GenerateReports_spec_create_fails denyingEnv (executes allExecute) 6 threeSpecSuite "out"
      [specA] [specC] specB "permission denied" rfl rfl rfl hb rfl rfl).2.2.1 (by decide),
   (GenerateReports_spec_create_fails denyingEnv (executes allExecute) 6 threeSpecSuite "out"
      [specA] [specC] specB "permission denied" rfl rfl rfl hb rfl rfl).2.2.2.2.1⟩

/-! ## Specification page -/

end generator
